import Mathlib

/-!
Verification development for the asteroid-shooter repository
(`src/unnamed/part_000`, first variant, and `src/src/main.js`).

The spawning / density subsystem is shallowly embedded:
* world coordinates and sizes are rationals (`ℚ`) — JS numbers used only
  through comparisons and +,-,*, so exact rationals model every branch
  decision taken by the code;
* `Math.random()` is an injected stream of values in `[0, 1)`;
* `Phaser.Math.FloatBetween(a, b)` is `random * (b - a) + a`;
* `Phaser.Math.Between(a, b)` is `⌊random * (b - a + 1)⌋ + a`;
* `Phaser.Math.Distance.Between(...) < bound` (a `Math.sqrt` comparison) is
  embedded square-root-free as `0 < bound ∧ dist² < bound²`, which is
  equivalent (proved against `Real.sqrt` in `distLt_iff_sqrt`);
* the polygon generator, which calls `Math.cos` / `Math.sin`, lives in `ℝ`.

Definitions follow the source functions of `src/unnamed/part_000` lines
1-1000 (the variant all claim line references point into) and keep their
names.
-/

namespace AsteroidShooter

/-- `Phaser.Geom.Rectangle`: stored as x, y, width, height; `left = x`,
`right = x + width`, `top = y`, `bottom = y + height`. -/
structure Rect where
  x : ℚ
  y : ℚ
  width : ℚ
  height : ℚ
deriving DecidableEq

def Rect.left (r : Rect) : ℚ := r.x
def Rect.right (r : Rect) : ℚ := r.x + r.width
def Rect.top (r : Rect) : ℚ := r.y
def Rect.bottom (r : Rect) : ℚ := r.y + r.height

/-- `Phaser.Geom.Rectangle.Contains(rect, x, y)`: false for empty rectangles,
otherwise closed-rectangle membership (Phaser compares with `<=` / `>=`). -/
def Rect.contains (r : Rect) (px py : ℚ) : Bool :=
  if r.width ≤ 0 ∨ r.height ≤ 0 then false
  else decide (r.x ≤ px ∧ px ≤ r.x + r.width ∧ r.y ≤ py ∧ py ≤ r.y + r.height)

/-- `Phaser.Math.FloatBetween(min, max)` = `Math.random() * (max - min) + min`. -/
def floatBetween (a b u : ℚ) : ℚ := u * (b - a) + a

/-- `Phaser.Math.Between(min, max)` = `Math.floor(Math.random() * (max - min + 1)) + min`. -/
def mathBetween (a b : ℤ) (u : ℚ) : ℤ := ⌊u * ((b : ℚ) - (a : ℚ) + 1)⌋ + a

/-- A `Math.random()` comparison `dist < bound` where
`dist = Math.sqrt((x2-x1)^2 + (y2-y1)^2)` (`Phaser.Math.Distance.Between`).
Embedded without square roots: `sqrt s < bound ↔ 0 < bound ∧ s < bound²`. -/
def distLt (x1 y1 x2 y2 bound : ℚ) : Bool :=
  decide (0 < bound ∧ (x2 - x1) ^ 2 + (y2 - y1) ^ 2 < bound ^ 2)

/-- `distLt` agrees with the source's `Math.sqrt`-based comparison. -/
theorem distLt_iff_sqrt (x1 y1 x2 y2 bound : ℚ) :
    distLt x1 y1 x2 y2 bound = true ↔
      Real.sqrt (((x2 : ℝ) - x1) ^ 2 + ((y2 : ℝ) - y1) ^ 2) < (bound : ℝ) := by
  unfold distLt
  rcases le_or_lt bound 0 with hb | hb
  · simp only [decide_eq_true_eq]
    constructor
    · rintro ⟨h, -⟩; exact absurd h (not_lt.mpr hb)
    · intro h
      exact absurd (lt_of_le_of_lt (Real.sqrt_nonneg _) h)
        (not_lt.mpr (by exact_mod_cast hb))
  · have hb' : (0 : ℝ) < (bound : ℝ) := by exact_mod_cast hb
    rw [decide_eq_true_eq]
    rw [show (((x2 : ℝ) - x1) ^ 2 + ((y2 : ℝ) - y1) ^ 2)
        = (((x2 - x1) ^ 2 + (y2 - y1) ^ 2 : ℚ) : ℝ) by push_cast; ring]
    rw [Real.sqrt_lt' hb']
    constructor
    · rintro ⟨-, h⟩
      have : (((x2 - x1) ^ 2 + (y2 - y1) ^ 2 : ℚ) : ℝ) < ((bound ^ 2 : ℚ) : ℝ) := by
        exact_mod_cast h
      simpa [Rat.cast_pow] using this
    · intro h
      refine ⟨hb, ?_⟩
      exact_mod_cast (by simpa [Rat.cast_pow] using h :
        (((x2 - x1) ^ 2 + (y2 - y1) ^ 2 : ℚ) : ℝ) < ((bound : ℝ)) ^ 2)

/-- Asteroid size/toughness categories, `ASTEROID_CATEGORIES` (active ones). -/
inductive Cat where
  | XS
  | S
  | M
deriving DecidableEq

def Cat.minSize : Cat → ℤ
  | .XS => 10
  | .S => 16
  | .M => 25

def Cat.maxSize : Cat → ℤ
  | .XS => 15
  | .S => 24
  | .M => 40

def Cat.hp : Cat → ℤ
  | .XS => 1
  | .S => 2
  | .M => 3

/-- `ACTIVE_ASTEROID_CATEGORIES = ['XS', 'S', 'M']`. -/
def activeCategories : List Cat := [Cat.XS, Cat.S, Cat.M]

-- Numeric constants of the source (part_000 variant).
def SPAWN_CHECK_RADIUS_MULTIPLIER : ℚ := 6 / 5
def SPAWN_MAX_RETRIES : ℕ := 15
def SPAWN_BUFFER : ℚ := 100
def CLEANUP_BUFFER : ℚ := 400
def PLAYER_INITIAL_SAFE_ZONE_RADIUS : ℚ := 150
def PROACTIVE_GENERATION_RADIUS_MULTIPLIER : ℚ := 5 / 2
def TARGET_ASTEROIDS_PER_QUADRANT : ℤ := 4
def PROACTIVE_INNER_BUFFER : ℚ := SPAWN_BUFFER * (3 / 2)
def ASTEROID_MIN_SPEED : ℤ := 30
def ASTEROID_MAX_SPEED : ℤ := 80
def ASTEROID_MIN_VERTICES : ℤ := 6
def ASTEROID_MAX_VERTICES : ℤ := 11
def ASTEROID_JAGGEDNESS : ℝ := 0.4
def PLAYER_SPEED_THRESHOLD_FOR_BIAS : ℚ := 50
def SPAWN_BIAS_STRENGTH : ℝ := 0.6

/-- A live asteroid as stored in `asteroidsGroup`: position plus the
`setData` metadata every spawn path records.  `active` / `hasBody` mirror the
`existingAsteroid.active` / `existingAsteroid.body` guards; `fill` models the
graphics fill state set by `drawAsteroidShape` (`none` = stroke only). -/
structure Asteroid where
  x : ℚ
  y : ℚ
  category : Cat
  hitPoints : ℤ
  visualSize : ℚ
  points : List (ℝ × ℝ)
  isHit : Bool
  fill : Option (ℕ × ℚ)
  colliderRadius : ℚ
  velocity : ℝ × ℝ
  angularVelocity : ℚ
  active : Bool
  hasBody : Bool

/-- `existingAsteroid.getData('visualSize') || category.minSize` — the JS `||`
falls back exactly when the stored value is falsy (the number 0 for a stored
size; every spawn path stores a size ≥ 10, so the fallback is defensive).
`catMin` is the *candidate's* category minimum, as in the source. -/
def existingSizeOf (catMin : ℚ) (a : Asteroid) : ℚ :=
  if a.visualSize = 0 then catMin else a.visualSize

/-- One pair check of the overlap scan in `spawnAsteroid` /
`spawnAsteroidInRegion` (lines 463-478 and 562-579): a coarse bounding-box
rejection (`checkDist = (sizes) * 1.2 * 1.5`, compared against |Δx| and |Δy|),
then the exact Euclidean-distance check against `(sizes) * 1.2`. -/
def overlapsPair (candSize sx sy : ℚ) (catMin : ℚ) (a : Asteroid) : Bool :=
  let checkDist := (candSize + existingSizeOf catMin a) * SPAWN_CHECK_RADIUS_MULTIPLIER * (3 / 2)
  if |a.x - sx| > checkDist ∨ |a.y - sy| > checkDist then false
  else
    let requiredDist := (candSize + existingSizeOf catMin a) * SPAWN_CHECK_RADIUS_MULTIPLIER
    distLt sx sy a.x a.y requiredDist

/-- One pair check of the overlap scan *without* the coarse bounding-box
rejection — the form used by `spawnAsteroidInView` (lines 321-331), and the
spec's reference oracle (§4.2: only the exact per-pair distance check). -/
def overlapsPairExact (candSize sx sy : ℚ) (catMin : ℚ) (a : Asteroid) : Bool :=
  let requiredDist := (candSize + existingSizeOf catMin a) * SPAWN_CHECK_RADIUS_MULTIPLIER
  distLt sx sy a.x a.y requiredDist

/-- The overlap oracle: scan the live asteroid group, skipping entries without
a body or not active (`!existingAsteroid || !existingAsteroid.body ||
!existingAsteroid.active`), declaring overlap as soon as one pair overlaps. -/
def overlapsAny (candSize sx sy : ℚ) (catMin : ℚ) (asteroids : List Asteroid) : Bool :=
  asteroids.any fun a => a.active && a.hasBody && overlapsPair candSize sx sy catMin a

/-- The overlap oracle with only the exact per-pair distance check
(`spawnAsteroidInView`'s scan, and the spec's §4.2 reference form). -/
def overlapsAnyExact (candSize sx sy : ℚ) (catMin : ℚ) (asteroids : List Asteroid) : Bool :=
  asteroids.any fun a => a.active && a.hasBody && overlapsPairExact candSize sx sy catMin a

/-- The coarse bounding-box rejection only skips pairs the exact check would
also reject: `|Δx| > 1.8·s` forces `Δx² + Δy² ≥ (1.2·s)²`. -/
theorem overlapsPair_eq_exact (candSize sx sy catMin : ℚ) (a : Asteroid) :
    overlapsPair candSize sx sy catMin a = overlapsPairExact candSize sx sy catMin a := by
  unfold overlapsPair overlapsPairExact
  set s := (candSize + existingSizeOf catMin a) * SPAWN_CHECK_RADIUS_MULTIPLIER with hs
  by_cases h : |a.x - sx| > s * (3 / 2) ∨ |a.y - sy| > s * (3 / 2)
  · simp only [h, if_true, if_pos]
    have hfar : ¬ (0 < s ∧ (a.x - sx) ^ 2 + (a.y - sy) ^ 2 < s ^ 2) := by
      rintro ⟨hpos, hlt⟩
      have h15 : (0 : ℚ) < s * (3 / 2) := by nlinarith
      rcases h with hx | hy
      · have hx2 : (s * (3 / 2)) ^ 2 < (a.x - sx) ^ 2 := by
          nlinarith [sq_abs (a.x - sx), abs_nonneg (a.x - sx)]
        nlinarith [sq_nonneg (a.y - sy)]
      · have hy2 : (s * (3 / 2)) ^ 2 < (a.y - sy) ^ 2 := by
          nlinarith [sq_abs (a.y - sy), abs_nonneg (a.y - sy)]
        nlinarith [sq_nonneg (a.x - sx)]
    simp [distLt, hfar]
  · simp [h]

/-- Whole-scan version: the oracle with the coarse pre-filter computes the same
answer as the oracle with only the exact distance check. -/
theorem overlapsAny_eq_exact (candSize sx sy catMin : ℚ) (asteroids : List Asteroid) :
    overlapsAny candSize sx sy catMin asteroids
      = overlapsAnyExact candSize sx sy catMin asteroids := by
  unfold overlapsAny overlapsAnyExact
  induction asteroids with
  | nil => rfl
  | cons a rest ih => simp [List.any_cons, overlapsPair_eq_exact, ih]

/-! ## Polygon generator (`generateAsteroidPoints`, lines 925-942)

The generator calls `Math.cos` / `Math.sin`, so it is embedded over `ℝ`.
`uA` and `uR` are the `Math.random()` values consumed by the two
`FloatBetween` calls of each loop iteration (angle perturbation, radius). -/

noncomputable def floatBetweenR (a b u : ℝ) : ℝ := u * (b - a) + a

/-- `angleStep = (Math.PI * 2) / numVertices`. -/
noncomputable def angleStep (numVertices : ℕ) : ℝ := Real.pi * 2 / numVertices

/-- `angle = i * angleStep + FloatBetween(-angleStep * 0.3, angleStep * 0.3)`. -/
noncomputable def vertexAngle (numVertices : ℕ) (uA : ℕ → ℝ) (i : ℕ) : ℝ :=
  i * angleStep numVertices
    + floatBetweenR (-(angleStep numVertices * 0.3)) (angleStep numVertices * 0.3) (uA i)

/-- `radius = FloatBetween(avgRadius * (1 - JAGGEDNESS), avgRadius * (1 + JAGGEDNESS))`. -/
noncomputable def vertexRadius (avgRadius : ℝ) (uR : ℕ → ℝ) (i : ℕ) : ℝ :=
  floatBetweenR (avgRadius * (1 - ASTEROID_JAGGEDNESS)) (avgRadius * (1 + ASTEROID_JAGGEDNESS))
    (uR i)

/-- Vertex i pushed by the generator: `{x: Math.cos(angle) * radius, y: Math.sin(angle) * radius}`. -/
noncomputable def vtx (avgRadius : ℝ) (numVertices : ℕ) (uA uR : ℕ → ℝ) (i : ℕ) : ℝ × ℝ :=
  (Real.cos (vertexAngle numVertices uA i) * vertexRadius avgRadius uR i,
   Real.sin (vertexAngle numVertices uA i) * vertexRadius avgRadius uR i)

/-- `generateAsteroidPoints(avgRadius, numVertices)` (part_000 variant,
angle perturbation factor 0.3). -/
noncomputable def generateAsteroidPoints (avgRadius : ℝ) (numVertices : ℕ)
    (uA uR : ℕ → ℝ) : List (ℝ × ℝ) :=
  (List.range numVertices).map (vtx avgRadius numVertices uA uR)

theorem generateAsteroidPoints_length (avgRadius : ℝ) (numVertices : ℕ) (uA uR : ℕ → ℝ) :
    (generateAsteroidPoints avgRadius numVertices uA uR).length = numVertices := by
  simp [generateAsteroidPoints]

/-! ## Randomness environment for one spawn call -/

/-- `q` is a possible `Math.random()` result. -/
def unitRand (q : ℚ) : Prop := 0 ≤ q ∧ q < 1

/-- All `Math.random()` draws one spawn call can consume, split by call site.
`bodyOk` abstracts the physics collaborator: whether
`asteroidGraphics.body` was attached. -/
structure SpawnEnv where
  uCat : ℚ
  uSize : ℚ
  uVerts : ℚ
  uX : ℕ → ℚ
  uY : ℕ → ℚ
  uEdge : ℚ
  uEdgeSel : ℚ
  uAngle : ℚ
  uSpeed : ℚ
  uRot : ℚ
  uTargetX : ℚ
  uTargetY : ℚ
  uShapeA : ℕ → ℚ
  uShapeR : ℕ → ℚ
  bodyOk : Bool

def SpawnEnv.Valid (e : SpawnEnv) : Prop :=
  unitRand e.uCat ∧ unitRand e.uSize ∧ unitRand e.uVerts ∧
  (∀ k, unitRand (e.uX k)) ∧ (∀ k, unitRand (e.uY k)) ∧
  unitRand e.uEdge ∧ unitRand e.uEdgeSel ∧ unitRand e.uAngle ∧
  unitRand e.uSpeed ∧ unitRand e.uRot ∧ unitRand e.uTargetX ∧ unitRand e.uTargetY ∧
  (∀ k, unitRand (e.uShapeA k)) ∧ (∀ k, unitRand (e.uShapeR k))

/-- `Phaser.Utils.Array.GetRandom(ACTIVE_ASTEROID_CATEGORIES)` =
`array[Math.floor(Math.random() * array.length)]`. -/
def SpawnEnv.categoryName (e : SpawnEnv) : Cat :=
  activeCategories.getD (⌊e.uCat * 3⌋).toNat Cat.XS

/-- `visualSize = Phaser.Math.Between(category.minSize, category.maxSize)`. -/
def SpawnEnv.visualSize (e : SpawnEnv) : ℚ :=
  (mathBetween e.categoryName.minSize e.categoryName.maxSize e.uSize : ℚ)

/-- `numVertices = Phaser.Math.Between(ASTEROID_MIN_VERTICES, ASTEROID_MAX_VERTICES)`. -/
def SpawnEnv.numVertices (e : SpawnEnv) : ℕ :=
  (mathBetween ASTEROID_MIN_VERTICES ASTEROID_MAX_VERTICES e.uVerts).toNat

/-- Shape outline a spawn call generates. -/
noncomputable def SpawnEnv.shape (e : SpawnEnv) : List (ℝ × ℝ) :=
  generateAsteroidPoints (e.visualSize : ℝ) e.numVertices
    (fun i => (e.uShapeA i : ℝ)) (fun i => (e.uShapeR i : ℝ))

/-- `scene.physics.velocityFromRotation(rotation, speed)` =
`(speed * cos rotation, speed * sin rotation)`. -/
noncomputable def velocityFromRotation (rotation speed : ℝ) : ℝ × ℝ :=
  (speed * Real.cos rotation, speed * Real.sin rotation)

/-- `Phaser.Math.Angle.Between(x1, y1, x2, y2)` = `Math.atan2(y2 - y1, x2 - x1)`. -/
noncomputable def angleBetween (x1 y1 x2 y2 : ℚ) : ℝ :=
  Complex.arg ⟨(x2 : ℝ) - (x1 : ℝ), (y2 : ℝ) - (y1 : ℝ)⟩

/-! ## Region-constrained spawn (`spawnAsteroidInRegion`, lines 532-627) -/

/-- Candidate sampled on retry `k`:
`spawnX = FloatBetween(regionBounds.left, regionBounds.right)`,
`spawnY = FloatBetween(regionBounds.top, regionBounds.bottom)`. -/
def regionCandidate (e : SpawnEnv) (regionBounds : Rect) (k : ℕ) : ℚ × ℚ :=
  (floatBetween regionBounds.left regionBounds.right (e.uX k),
   floatBetween regionBounds.top regionBounds.bottom (e.uY k))

/-- Retry loop of `spawnAsteroidInRegion` (lines 549-587).  `k` is the retry
index, `fuel` the remaining retries (`SPAWN_MAX_RETRIES - k`).  A candidate
inside `worldView` is skipped (CHECK 1), then the overlap oracle is consulted
(CHECK 2).  Returns the accepted spot, if any, and the number of candidates
sampled from retry `k` on. -/
def regionFindSpot (e : SpawnEnv) (worldView : Rect) (asteroids : List Asteroid)
    (regionBounds : Rect) : ℕ → ℕ → Option (ℚ × ℚ) × ℕ
  | 0, _ => (none, 0)
  | fuel + 1, k =>
    if worldView.contains (regionCandidate e regionBounds k).1
        (regionCandidate e regionBounds k).2 then
      ((regionFindSpot e worldView asteroids regionBounds fuel (k + 1)).1,
       (regionFindSpot e worldView asteroids regionBounds fuel (k + 1)).2 + 1)
    else if overlapsAny e.visualSize (regionCandidate e regionBounds k).1
        (regionCandidate e regionBounds k).2 (e.categoryName.minSize : ℚ) asteroids then
      ((regionFindSpot e worldView asteroids regionBounds fuel (k + 1)).1,
       (regionFindSpot e worldView asteroids regionBounds fuel (k + 1)).2 + 1)
    else (some (regionCandidate e regionBounds k), 1)

/-- The asteroid the region spawner's create block (lines 594-621) builds at
an accepted spot `c`: category hp, visual size, generated outline, circular
collider at `0.9 ×` size, fully random velocity direction with speed
`Between(MIN_SPEED * 0.8, MAX_SPEED * 1.1) = Between(24, 88)`. -/
noncomputable def regionSpawnedAsteroid (e : SpawnEnv) (c : ℚ × ℚ) : Asteroid :=
  { x := c.1, y := c.2
    category := e.categoryName
    hitPoints := e.categoryName.hp
    visualSize := e.visualSize
    points := e.shape
    isHit := false
    fill := none
    colliderRadius := e.visualSize * (9 / 10)
    velocity := velocityFromRotation (floatBetweenR 0 (Real.pi * 2) (e.uAngle : ℝ))
      ((mathBetween 24 88 e.uSpeed : ℤ) : ℝ)
    angularVelocity := floatBetween (-60) 60 e.uRot
    active := true
    hasBody := true }

/-- `spawnAsteroidInRegion(scene, regionBounds)`: returns the created asteroid
(or `none`) together with the updated asteroid group.  On body-attachment
failure the just-added graphics object is destroyed, so the group is
unchanged and `null` is returned. -/
noncomputable def spawnAsteroidInRegion (e : SpawnEnv) (worldView : Rect)
    (asteroids : List Asteroid) (regionBounds : Rect) : Option Asteroid × List Asteroid :=
  match (regionFindSpot e worldView asteroids regionBounds SPAWN_MAX_RETRIES 0).1 with
  | none => (none, asteroids)
  | some c =>
    if e.bodyOk then
      (some (regionSpawnedAsteroid e c), asteroids ++ [regionSpawnedAsteroid e c])
    else (none, asteroids)

/-! ## Off-screen edge spawn (`spawnAsteroid`, lines 381-523) -/

/-- `Phaser.Math.Angle.ShortestBetween(angle1, angle2)` (degrees):
the difference `angle2 - angle1` wrapped into `[-180, 180)`. -/
noncomputable def shortestBetween (angle1 angle2 : ℝ) : ℝ :=
  let difference := angle2 - angle1
  difference - 360 * ⌊(difference + 180) / 360⌋

open Classical in
/-- Edge weights of the spawn-bias block (lines 411-424): `[1,1,1,1]` for
Top, Right, Bottom, Left; the edges within 45° of the player's heading get
multiplied by `1 + SPAWN_BIAS_STRENGTH * 4`. -/
noncomputable def biasWeights (vx vy : ℚ) : List ℝ :=
  let degPlayerAngle := Complex.arg ⟨(vx : ℝ), (vy : ℝ)⟩ * (180 / Real.pi)
  let biasAmount : ℝ := 1 + SPAWN_BIAS_STRENGTH * 4
  [if |shortestBetween degPlayerAngle (-90)| ≤ 45 then biasAmount else 1,
   if |shortestBetween degPlayerAngle 0| ≤ 45 then biasAmount else 1,
   if |shortestBetween degPlayerAngle 90| ≤ 45 then biasAmount else 1,
   if |shortestBetween degPlayerAngle 180| ≤ 45 then biasAmount else 1]

open Classical in
/-- Weighted random edge selection (lines 426-434): walk the weight array,
picking index `i` once the remaining threshold drops below `weights[i]`. -/
noncomputable def weightedPick : List ℝ → ℝ → Option ℕ
  | [], _ => none
  | w :: rest, threshold =>
    if threshold < w then some 0
    else (weightedPick rest (threshold - w)).map (· + 1)

/-- Edge chosen by `spawnAsteroid`: a random edge by default, overridden by
the weighted selection when player speed exceeds
`PLAYER_SPEED_THRESHOLD_FOR_BIAS` (the `speed > 50` check is embedded as
`50² < vx² + vy²`). -/
noncomputable def chooseEdge (e : SpawnEnv) (vx vy : ℚ) : ℤ :=
  let defaultEdge := mathBetween 0 3 e.uEdge
  if PLAYER_SPEED_THRESHOLD_FOR_BIAS ^ 2 < vx ^ 2 + vy ^ 2 then
    let weights := biasWeights vx vy
    let totalWeight := weights.sum
    ((weightedPick weights ((e.uEdgeSel : ℝ) * totalWeight)).map (fun i => (i : ℤ))).getD
      defaultEdge
  else defaultEdge

/-- Candidate sampled on retry `k` of the off-screen loop (lines 441-458),
placed just outside the chosen viewport edge using `SPAWN_BUFFER` plus a
jitter of `Math.random() * visualSize`.  The source `switch` has no default
case (edge is always 0-3 for a valid random draw); any other value is mapped
to `(0, 0)` here. -/
def offCandidate (e : SpawnEnv) (worldView : Rect) (edge : ℤ) (k : ℕ) : ℚ × ℚ :=
  if edge = 0 then
    (floatBetween (worldView.left - SPAWN_BUFFER) (worldView.right + SPAWN_BUFFER) (e.uX k),
     worldView.top - SPAWN_BUFFER - e.uY k * e.visualSize)
  else if edge = 1 then
    (worldView.right + SPAWN_BUFFER + e.uX k * e.visualSize,
     floatBetween (worldView.top - SPAWN_BUFFER) (worldView.bottom + SPAWN_BUFFER) (e.uY k))
  else if edge = 2 then
    (floatBetween (worldView.left - SPAWN_BUFFER) (worldView.right + SPAWN_BUFFER) (e.uX k),
     worldView.bottom + SPAWN_BUFFER + e.uY k * e.visualSize)
  else if edge = 3 then
    (worldView.left - SPAWN_BUFFER - e.uX k * e.visualSize,
     floatBetween (worldView.top - SPAWN_BUFFER) (worldView.bottom + SPAWN_BUFFER) (e.uY k))
  else (0, 0)

/-- Retry loop of `spawnAsteroid` (lines 439-484): sample a point outside the
chosen edge, reject on oracle overlap (with the coarse pre-filter). -/
def offFindSpot (e : SpawnEnv) (worldView : Rect) (asteroids : List Asteroid)
    (edge : ℤ) : ℕ → ℕ → Option (ℚ × ℚ)
  | 0, _ => none
  | fuel + 1, k =>
    if overlapsAny e.visualSize (offCandidate e worldView edge k).1
        (offCandidate e worldView edge k).2 (e.categoryName.minSize : ℚ) asteroids then
      offFindSpot e worldView asteroids edge fuel (k + 1)
    else some (offCandidate e worldView edge k)

/-- The asteroid the off-screen spawner's create block (lines 491-522) builds
at an accepted spot `c`: velocity aims from `c` at a random point inside the
current view, speed `Between(MIN_SPEED, MAX_SPEED)`. -/
noncomputable def offSpawnedAsteroid (e : SpawnEnv) (worldView : Rect) (c : ℚ × ℚ) :
    Asteroid :=
  { x := c.1, y := c.2
    category := e.categoryName
    hitPoints := e.categoryName.hp
    visualSize := e.visualSize
    points := e.shape
    isHit := false
    fill := none
    colliderRadius := e.visualSize * (9 / 10)
    velocity := velocityFromRotation
      (angleBetween c.1 c.2 (floatBetween worldView.left worldView.right e.uTargetX)
        (floatBetween worldView.top worldView.bottom e.uTargetY))
      ((mathBetween ASTEROID_MIN_SPEED ASTEROID_MAX_SPEED e.uSpeed : ℤ) : ℝ)
    angularVelocity := floatBetween (-60) 60 e.uRot
    active := true
    hasBody := true }

/-- `spawnAsteroid(scene)` (off-screen, bias-aware).  The source returns
`undefined`; the `Option Asteroid` component records whether an asteroid was
created, the second component is the updated group.  Velocity aims at a
random point inside the current view. -/
noncomputable def spawnAsteroid (e : SpawnEnv) (worldView : Rect) (playerVel : ℚ × ℚ)
    (asteroids : List Asteroid) : Option Asteroid × List Asteroid :=
  let edge := chooseEdge e playerVel.1 playerVel.2
  match offFindSpot e worldView asteroids edge SPAWN_MAX_RETRIES 0 with
  | none => (none, asteroids)
  | some c =>
    if e.bodyOk then
      (some (offSpawnedAsteroid e worldView c), asteroids ++ [offSpawnedAsteroid e worldView c])
    else (none, asteroids)

/-! ## In-view scatter spawn (`spawnAsteroidInView`, lines 287-376) -/

/-- Candidate sampled on retry `k` of the in-view loop: uniform over the
initial screen rectangle inset by `margin = visualSize`. -/
def inViewCandidate (e : SpawnEnv) (areaWidth areaHeight : ℚ) (k : ℕ) : ℚ × ℚ :=
  let margin := e.visualSize
  (floatBetween margin (areaWidth - margin) (e.uX k),
   floatBetween margin (areaHeight - margin) (e.uY k))

/-- Retry loop of `spawnAsteroidInView` (lines 309-337, budget
`SPAWN_MAX_RETRIES * 2`): reject candidates within
`PLAYER_INITIAL_SAFE_ZONE_RADIUS` of the player start
`(areaWidth/2, areaHeight/2)`, then candidates the (exact, pre-filter-free)
oracle rejects. -/
def inViewFindSpot (e : SpawnEnv) (areaWidth areaHeight : ℚ) (asteroids : List Asteroid) :
    ℕ → ℕ → Option (ℚ × ℚ)
  | 0, _ => none
  | fuel + 1, k =>
    if distLt (inViewCandidate e areaWidth areaHeight k).1
        (inViewCandidate e areaWidth areaHeight k).2 (areaWidth / 2) (areaHeight / 2)
        PLAYER_INITIAL_SAFE_ZONE_RADIUS then
      inViewFindSpot e areaWidth areaHeight asteroids fuel (k + 1)
    else if overlapsAnyExact e.visualSize (inViewCandidate e areaWidth areaHeight k).1
        (inViewCandidate e areaWidth areaHeight k).2 (e.categoryName.minSize : ℚ) asteroids then
      inViewFindSpot e areaWidth areaHeight asteroids fuel (k + 1)
    else some (inViewCandidate e areaWidth areaHeight k)

/-- The asteroid the in-view spawner's create block (lines 345-375) builds at
an accepted spot `c`: fully random velocity direction, speed from the reduced
range `Between(MIN_SPEED * 0.5, MAX_SPEED * 0.8) = Between(15, 64)`. -/
noncomputable def inViewSpawnedAsteroid (e : SpawnEnv) (c : ℚ × ℚ) : Asteroid :=
  { x := c.1, y := c.2
    category := e.categoryName
    hitPoints := e.categoryName.hp
    visualSize := e.visualSize
    points := e.shape
    isHit := false
    fill := none
    colliderRadius := e.visualSize * (9 / 10)
    velocity := velocityFromRotation (floatBetweenR 0 (Real.pi * 2) (e.uAngle : ℝ))
      ((mathBetween 15 64 e.uSpeed : ℤ) : ℝ)
    angularVelocity := floatBetween (-60) 60 e.uRot
    active := true
    hasBody := true }

/-- `spawnAsteroidInView(scene)` (startup only).  On retry exhaustion it
falls back to the off-screen spawner (`spawnAsteroid(scene); return;`,
lines 339-343), which consumes its own fresh randomness `eFallback`. -/
noncomputable def spawnAsteroidInView (e eFallback : SpawnEnv) (areaWidth areaHeight : ℚ)
    (worldView : Rect) (playerVel : ℚ × ℚ) (asteroids : List Asteroid) :
    Option Asteroid × List Asteroid :=
  match inViewFindSpot e areaWidth areaHeight asteroids (SPAWN_MAX_RETRIES * 2) 0 with
  | none => spawnAsteroid eFallback worldView playerVel asteroids
  | some c =>
    if e.bodyOk then
      (some (inViewSpawnedAsteroid e c), asteroids ++ [inViewSpawnedAsteroid e c])
    else (none, asteroids)

/-! ## Density controller (`checkAndPopulateDistantAreas`, lines 635-708) -/

/-- Inner exclusion rectangle: the view expanded by `PROACTIVE_INNER_BUFFER`. -/
def innerRect (worldView : Rect) : Rect :=
  { x := worldView.left - PROACTIVE_INNER_BUFFER
    y := worldView.top - PROACTIVE_INNER_BUFFER
    width := worldView.width + PROACTIVE_INNER_BUFFER * 2
    height := worldView.height + PROACTIVE_INNER_BUFFER * 2 }

/-- `genRadiusX = viewWidth * PROACTIVE_GENERATION_RADIUS_MULTIPLIER * (1 / 2)`. -/
def genRadiusX (worldView : Rect) : ℚ :=
  worldView.width * PROACTIVE_GENERATION_RADIUS_MULTIPLIER * (1 / 2)

def genRadiusY (worldView : Rect) : ℚ :=
  worldView.height * PROACTIVE_GENERATION_RADIUS_MULTIPLIER * (1 / 2)

/-- Generation window, centered on the player. -/
def genRect (px py : ℚ) (worldView : Rect) : Rect :=
  { x := px - genRadiusX worldView
    y := py - genRadiusY worldView
    width := genRadiusX worldView * 2
    height := genRadiusY worldView * 2 }

/-- The four quadrants, in source order: Top-Left, Top-Right, Bottom-Left,
Bottom-Right, each of size `genRadiusX × genRadiusY`, split at the player. -/
def quadRect (px py : ℚ) (worldView : Rect) : Fin 4 → Rect
  | 0 => { x := (genRect px py worldView).left, y := (genRect px py worldView).top
           width := genRadiusX worldView, height := genRadiusY worldView }
  | 1 => { x := px, y := (genRect px py worldView).top
           width := genRadiusX worldView, height := genRadiusY worldView }
  | 2 => { x := (genRect px py worldView).left, y := py
           width := genRadiusX worldView, height := genRadiusY worldView }
  | 3 => { x := px, y := py
           width := genRadiusX worldView, height := genRadiusY worldView }

/-- The quadrant the counting pass (lines 674-693) attributes an asteroid to:
skip inactive/body-less entries, skip anything inside the inner bounds, then
— within the generation window — take the first containing quadrant
(the inner `for` loop breaks at the first hit). -/
def countedQuad (px py : ℚ) (worldView : Rect) (a : Asteroid) : Option (Fin 4) :=
  if ¬ (a.active && a.hasBody) then none
  else if (innerRect worldView).contains a.x a.y then none
  else if (genRect px py worldView).contains a.x a.y then
    if (quadRect px py worldView 0).contains a.x a.y then some 0
    else if (quadRect px py worldView 1).contains a.x a.y then some 1
    else if (quadRect px py worldView 2).contains a.x a.y then some 2
    else if (quadRect px py worldView 3).contains a.x a.y then some 3
    else none
  else none

/-- `asteroidCounts[i]` after the counting pass. -/
def asteroidCounts (px py : ℚ) (worldView : Rect) (asteroids : List Asteroid)
    (i : Fin 4) : ℕ :=
  asteroids.countP fun a => countedQuad px py worldView a = some i

/-- Number of `spawnAsteroidInRegion` calls the spawning pass (lines 696-707)
issues for quadrant `i`: the inner loop runs `needed = TARGET - count` times
when `needed > 0`, none otherwise. -/
def spawnRequestCount (px py : ℚ) (worldView : Rect) (asteroids : List Asteroid)
    (i : Fin 4) : ℕ :=
  if 0 < TARGET_ASTEROIDS_PER_QUADRANT - (asteroidCounts px py worldView asteroids i : ℤ) then
    (TARGET_ASTEROIDS_PER_QUADRANT - (asteroidCounts px py worldView asteroids i : ℤ)).toNat
  else 0

/-- Spawning pass for one quadrant: `needed` sequential
`spawnAsteroidInRegion` calls, threading the growing group (each call draws
fresh randomness `envs j`). -/
noncomputable def populateQuadrant (envs : ℕ → SpawnEnv) (worldView : Rect) (quad : Rect) :
    ℕ → List Asteroid → List Asteroid
  | 0, asteroids => asteroids
  | j + 1, asteroids =>
    populateQuadrant envs worldView quad j (spawnAsteroidInRegion (envs j) worldView asteroids quad).2

/-- One density-controller tick, `checkAndPopulateDistantAreas(scene)`:
count per quadrant on the current group, then issue the per-quadrant spawn
requests in quadrant order. -/
noncomputable def checkAndPopulateDistantAreas (envs : Fin 4 → ℕ → SpawnEnv)
    (px py : ℚ) (worldView : Rect) (asteroids : List Asteroid) : List Asteroid :=
  let requests := spawnRequestCount px py worldView asteroids
  let a1 := populateQuadrant (envs 0) worldView (quadRect px py worldView 0) (requests 0) asteroids
  let a2 := populateQuadrant (envs 1) worldView (quadRect px py worldView 1) (requests 1) a1
  let a3 := populateQuadrant (envs 2) worldView (quadRect px py worldView 2) (requests 2) a2
  populateQuadrant (envs 3) worldView (quadRect px py worldView 3) (requests 3) a3

/-! ## Entity lifecycle (`handleBulletAsteroidCollision`, lines 757-813,
flash reverts, cleanup) -/

def ASTEROID_HIT_FILL_COLOR : ℕ := 0xffffff
def ASTEROID_HIT_FILL_ALPHA : ℚ := 2 / 5

/-- Outcome of one bullet-asteroid overlap event. -/
structure HitResult where
  asteroid : Option Asteroid
  scheduledRevert : Bool
  explosion : Bool
  bulletConsumed : Bool

/-- Effect of `handleBulletAsteroidCollision` on the asteroid (part_000
variant).  The early-return guard checks the asteroid is valid, active and
has a body; the (dead in this model) missing-`hitPoints` branch is not
reachable because every spawn path stores `hitPoints`; `points` is always the
truthy stored array, so `points && !isHit` is `!isHit`.  A destroyed asteroid
(`hitPoints` reaching 0) is removed with an explosion; a surviving,
not-yet-flashing one is redrawn filled, flagged and a revert is scheduled. -/
def handleBulletAsteroidCollision (a : Asteroid) : HitResult :=
  if ¬ (a.active && a.hasBody) then ⟨some a, false, false, false⟩
  else if a.hitPoints - 1 ≤ 0 then ⟨none, false, true, true⟩
  else if ¬ a.isHit then
    ⟨some
      { a with
        hitPoints := a.hitPoints - 1
        isHit := true
        fill := some (ASTEROID_HIT_FILL_COLOR, ASTEROID_HIT_FILL_ALPHA) },
     true, false, true⟩
  else ⟨some { a with hitPoints := a.hitPoints - 1 }, false, false, true⟩

/-- The scheduled flash revert of part_000 (lines 803-809): guarded by
`asteroid && asteroid.active && asteroid.getData('hitPoints') > 0`; when the
guard passes it redraws the normal (stroke-only) shape and clears `isHit`. -/
def flashRevert (a : Asteroid) : Asteroid :=
  if a.active && decide (0 < a.hitPoints) then { a with fill := none, isHit := false } else a

/-- The scheduled flash revert of `src/src/main.js` (lines 410-416): guarded
only by `asteroid && asteroid.active` — no hit-point check. -/
def flashRevertMainJs (a : Asteroid) : Asteroid :=
  if a.active then { a with fill := none, isHit := false } else a

/-- Cleanup rectangle for asteroids: view expanded by `CLEANUP_BUFFER`. -/
def cleanupRect (worldView : Rect) : Rect :=
  { x := worldView.left - CLEANUP_BUFFER
    y := worldView.top - CLEANUP_BUFFER
    width := worldView.width + CLEANUP_BUFFER * 2
    height := worldView.height + CLEANUP_BUFFER * 2 }

/-- `cleanupOutOfBoundsAsteroids`: remove every asteroid with a body whose
position left the cleanup rectangle. -/
def cleanupOutOfBoundsAsteroids (worldView : Rect) (asteroids : List Asteroid) :
    List Asteroid :=
  asteroids.filter fun a => !a.hasBody || (cleanupRect worldView).contains a.x a.y

/-- `handlePlayerAsteroidCollision`: an active asteroid with a body is
destroyed unconditionally. -/
def handlePlayerAsteroidCollision (a : Asteroid) : Option Asteroid :=
  if a.active && a.hasBody then none else some a

/-! ## World state and its transitions

The live-asteroid group together with every operation of the source that
touches it.  `applyAt` models a handler invoked on one group member through a
physics callback: the entry is replaced, or removed when the handler destroys
it. -/

structure World where
  asteroids : List Asteroid

def applyAt (f : Asteroid → Option Asteroid) : List Asteroid → ℕ → List Asteroid
  | [], _ => []
  | a :: rest, 0 =>
    match f a with
    | none => rest
    | some a' => a' :: rest
  | a :: rest, i + 1 => a :: applyAt f rest i

/-- Per-frame physics integration: positions move, metadata is untouched. -/
def updatePositions : List Asteroid → List (ℚ × ℚ) → List Asteroid
  | [], _ => []
  | a :: rest, [] => a :: rest
  | a :: rest, p :: ps => { a with x := p.1, y := p.2 } :: updatePositions rest ps

/-- One scheduler-visible operation of the source on the asteroid group. -/
inductive Step : World → World → Prop
  | inView (e eFallback : SpawnEnv) (areaWidth areaHeight : ℚ) (worldView : Rect)
      (playerVel : ℚ × ℚ) (w : World) (he : e.Valid) (hf : eFallback.Valid) :
      Step w ⟨(spawnAsteroidInView e eFallback areaWidth areaHeight worldView playerVel
        w.asteroids).2⟩
  | offscreen (e : SpawnEnv) (worldView : Rect) (playerVel : ℚ × ℚ) (w : World)
      (he : e.Valid) :
      Step w ⟨(spawnAsteroid e worldView playerVel w.asteroids).2⟩
  | region (e : SpawnEnv) (worldView regionBounds : Rect) (w : World) (he : e.Valid) :
      Step w ⟨(spawnAsteroidInRegion e worldView w.asteroids regionBounds).2⟩
  | densityTick (envs : Fin 4 → ℕ → SpawnEnv) (px py : ℚ) (worldView : Rect) (w : World)
      (he : ∀ i j, (envs i j).Valid) :
      Step w ⟨checkAndPopulateDistantAreas envs px py worldView w.asteroids⟩
  | bulletHit (i : ℕ) (w : World) :
      Step w ⟨applyAt (fun a => (handleBulletAsteroidCollision a).asteroid) w.asteroids i⟩
  | playerHit (i : ℕ) (w : World) :
      Step w ⟨applyAt handlePlayerAsteroidCollision w.asteroids i⟩
  | revertFires (i : ℕ) (w : World) :
      Step w ⟨applyAt (fun a => some (flashRevert a)) w.asteroids i⟩
  | cleanup (worldView : Rect) (w : World) :
      Step w ⟨cleanupOutOfBoundsAsteroids worldView w.asteroids⟩
  | physics (ps : List (ℚ × ℚ)) (w : World) :
      Step w ⟨updatePositions w.asteroids ps⟩

/-- States reachable from the empty world (the group starts empty; the
initial 20 in-view spawns are `Step.inView` transitions). -/
inductive Reachable : World → Prop
  | init : Reachable ⟨[]⟩
  | step {w w' : World} : Reachable w → Step w w' → Reachable w'

/-! ## Sampling-range lemmas -/

theorem floatBetween_mem {u : ℚ} (a b : ℚ) (hu : unitRand u) (hab : a ≤ b) :
    a ≤ floatBetween a b u ∧ floatBetween a b u ≤ b := by
  obtain ⟨h0, h1⟩ := hu
  unfold floatBetween
  constructor
  · nlinarith
  · nlinarith

theorem mathBetween_mem {u : ℚ} (a b : ℤ) (hu : unitRand u) (hab : a ≤ b) :
    a ≤ mathBetween a b u ∧ mathBetween a b u ≤ b := by
  obtain ⟨h0, h1⟩ := hu
  unfold mathBetween
  have hspan : (0 : ℚ) < (b : ℚ) - (a : ℚ) + 1 := by
    have : (a : ℚ) ≤ (b : ℚ) := by exact_mod_cast hab
    linarith
  constructor
  · have : (0 : ℤ) ≤ ⌊u * ((b : ℚ) - (a : ℚ) + 1)⌋ := by
      apply Int.floor_nonneg.mpr
      positivity
    omega
  · have hlt : u * ((b : ℚ) - (a : ℚ) + 1) < (b : ℚ) - (a : ℚ) + 1 := by nlinarith
    have : ⌊u * ((b : ℚ) - (a : ℚ) + 1)⌋ < b - a + 1 := by
      apply Int.floor_lt.mpr
      push_cast
      linarith
    omega

theorem cat_hp_mem (c : Cat) : 1 ≤ c.hp ∧ c.hp ≤ 3 := by
  cases c <;> simp [Cat.hp]

theorem cat_minSize_le_maxSize (c : Cat) : c.minSize ≤ c.maxSize := by
  cases c <;> simp [Cat.minSize, Cat.maxSize]

theorem numVertices_mem {e : SpawnEnv} (he : e.Valid) :
    6 ≤ e.numVertices ∧ e.numVertices ≤ 11 := by
  have hu : unitRand e.uVerts := he.2.2.1
  have h := mathBetween_mem ASTEROID_MIN_VERTICES ASTEROID_MAX_VERTICES hu (by decide)
  unfold SpawnEnv.numVertices
  unfold ASTEROID_MIN_VERTICES ASTEROID_MAX_VERTICES at h ⊢
  omega

theorem shape_length (e : SpawnEnv) : e.shape.length = e.numVertices := by
  simp [SpawnEnv.shape, generateAsteroidPoints_length]

/-! ## Region spawn loop lemmas -/

/-- A candidate of the region loop fails: it is visible, or the oracle
declares an overlap with the current group. -/
def regionRejected (e : SpawnEnv) (worldView : Rect) (asteroids : List Asteroid)
    (regionBounds : Rect) (k : ℕ) : Prop :=
  worldView.contains (regionCandidate e regionBounds k).1 (regionCandidate e regionBounds k).2
      = true ∨
    overlapsAny e.visualSize (regionCandidate e regionBounds k).1
      (regionCandidate e regionBounds k).2 (e.categoryName.minSize : ℚ) asteroids = true

instance (e : SpawnEnv) (worldView : Rect) (asteroids : List Asteroid)
    (regionBounds : Rect) (k : ℕ) :
    Decidable (regionRejected e worldView asteroids regionBounds k) := by
  unfold regionRejected
  infer_instance

theorem regionFindSpot_all_rejected (e : SpawnEnv) (worldView : Rect)
    (asteroids : List Asteroid) (regionBounds : Rect) (fuel k : ℕ)
    (h : ∀ j, k ≤ j → j < k + fuel → regionRejected e worldView asteroids regionBounds j) :
    regionFindSpot e worldView asteroids regionBounds fuel k = (none, fuel) := by
  induction fuel generalizing k with
  | zero => rfl
  | succ n ih =>
    have hk := h k le_rfl (by omega)
    have ihk : regionFindSpot e worldView asteroids regionBounds n (k + 1) = (none, n) :=
      ih (k + 1) (fun j h1 h2 => h j (by omega) (by omega))
    unfold regionFindSpot
    rcases hv : worldView.contains (regionCandidate e regionBounds k).1
        (regionCandidate e regionBounds k).2 with _ | _
    · have hov : overlapsAny e.visualSize (regionCandidate e regionBounds k).1
          (regionCandidate e regionBounds k).2 (e.categoryName.minSize : ℚ) asteroids
          = true := by
        rcases hk with hk | hk
        · rw [hv] at hk; exact absurd hk (by simp)
        · exact hk
      simp only [hv, hov, Bool.false_eq_true, if_false, if_true, ihk]
    · simp only [hv, if_true, ihk]

theorem regionFindSpot_some (e : SpawnEnv) (worldView : Rect) (asteroids : List Asteroid)
    (regionBounds : Rect) (fuel k : ℕ) (c : ℚ × ℚ)
    (h : (regionFindSpot e worldView asteroids regionBounds fuel k).1 = some c) :
    ∃ j, k ≤ j ∧ j < k + fuel ∧ c = regionCandidate e regionBounds j ∧
      worldView.contains c.1 c.2 = false ∧
      overlapsAny e.visualSize c.1 c.2 (e.categoryName.minSize : ℚ) asteroids = false := by
  induction fuel generalizing k with
  | zero => exact absurd h (by simp [regionFindSpot])
  | succ n ih =>
    unfold regionFindSpot at h
    rcases hv : worldView.contains (regionCandidate e regionBounds k).1
        (regionCandidate e regionBounds k).2 with _ | _
    · rw [hv] at h
      simp only [Bool.false_eq_true, if_false] at h
      rcases hov : overlapsAny e.visualSize (regionCandidate e regionBounds k).1
          (regionCandidate e regionBounds k).2 (e.categoryName.minSize : ℚ) asteroids
          with _ | _
      · rw [hov] at h
        simp only [Bool.false_eq_true, if_false] at h
        have hc : c = regionCandidate e regionBounds k := (Option.some_inj.mp h).symm
        subst hc
        exact ⟨k, le_rfl, by omega, rfl, hv, hov⟩
      · rw [hov] at h
        simp only [if_true] at h
        obtain ⟨j, h1, h2, h3⟩ := ih (k + 1) h
        exact ⟨j, by omega, by omega, h3⟩
    · rw [hv] at h
      simp only [if_true] at h
      obtain ⟨j, h1, h2, h3⟩ := ih (k + 1) h
      exact ⟨j, by omega, by omega, h3⟩

/-! ## Case analyses of the three spawn strategies -/

theorem spawnAsteroidInRegion_cases (e : SpawnEnv) (worldView : Rect)
    (asteroids : List Asteroid) (regionBounds : Rect) :
    spawnAsteroidInRegion e worldView asteroids regionBounds = (none, asteroids) ∨
    ∃ c, (regionFindSpot e worldView asteroids regionBounds SPAWN_MAX_RETRIES 0).1 = some c ∧
      e.bodyOk = true ∧
      spawnAsteroidInRegion e worldView asteroids regionBounds =
        (some (regionSpawnedAsteroid e c), asteroids ++ [regionSpawnedAsteroid e c]) := by
  unfold spawnAsteroidInRegion
  rcases hf : (regionFindSpot e worldView asteroids regionBounds SPAWN_MAX_RETRIES 0).1
      with _ | c
  · left; rfl
  · by_cases hb : e.bodyOk = true
    · right; exact ⟨c, rfl, hb, by simp [hb]⟩
    · left; simp [Bool.not_eq_true] at hb; simp [hb]

theorem spawnAsteroid_cases (e : SpawnEnv) (worldView : Rect) (playerVel : ℚ × ℚ)
    (asteroids : List Asteroid) :
    spawnAsteroid e worldView playerVel asteroids = (none, asteroids) ∨
    ∃ c, offFindSpot e worldView asteroids (chooseEdge e playerVel.1 playerVel.2)
        SPAWN_MAX_RETRIES 0 = some c ∧ e.bodyOk = true ∧
      spawnAsteroid e worldView playerVel asteroids =
        (some (offSpawnedAsteroid e worldView c),
         asteroids ++ [offSpawnedAsteroid e worldView c]) := by
  unfold spawnAsteroid
  rcases hf : offFindSpot e worldView asteroids (chooseEdge e playerVel.1 playerVel.2)
      SPAWN_MAX_RETRIES 0 with _ | c
  · left; simp [hf]
  · by_cases hb : e.bodyOk = true
    · right; exact ⟨c, rfl, hb, by simp [hf, hb]⟩
    · left; simp only [Bool.not_eq_true] at hb; simp [hf, hb]

theorem spawnAsteroidInView_cases (e eFallback : SpawnEnv) (areaWidth areaHeight : ℚ)
    (worldView : Rect) (playerVel : ℚ × ℚ) (asteroids : List Asteroid) :
    (inViewFindSpot e areaWidth areaHeight asteroids (SPAWN_MAX_RETRIES * 2) 0 = none ∧
      spawnAsteroidInView e eFallback areaWidth areaHeight worldView playerVel asteroids =
        spawnAsteroid eFallback worldView playerVel asteroids) ∨
    spawnAsteroidInView e eFallback areaWidth areaHeight worldView playerVel asteroids =
      (none, asteroids) ∨
    ∃ c, inViewFindSpot e areaWidth areaHeight asteroids (SPAWN_MAX_RETRIES * 2) 0 = some c ∧
      e.bodyOk = true ∧
      spawnAsteroidInView e eFallback areaWidth areaHeight worldView playerVel asteroids =
        (some (inViewSpawnedAsteroid e c), asteroids ++ [inViewSpawnedAsteroid e c]) := by
  unfold spawnAsteroidInView
  rcases hf : inViewFindSpot e areaWidth areaHeight asteroids (SPAWN_MAX_RETRIES * 2) 0
      with _ | c
  · left; exact ⟨rfl, rfl⟩
  · right
    by_cases hb : e.bodyOk = true
    · right; exact ⟨c, rfl, hb, by simp [hb]⟩
    · left; simp [Bool.not_eq_true] at hb; simp [hb]

/-! ## Live-asteroid invariant -/

/-- The invariant of §3: positive hit points (bounded by the largest category
hp) and an outline of 6-11 (hence at least 3) points. -/
def GoodAsteroid (a : Asteroid) : Prop :=
  0 < a.hitPoints ∧ a.hitPoints ≤ 3 ∧ 6 ≤ a.points.length ∧ a.points.length ≤ 11

def WorldInv (w : World) : Prop := ∀ a ∈ w.asteroids, GoodAsteroid a

theorem regionSpawnedAsteroid_good {e : SpawnEnv} (he : e.Valid) (c : ℚ × ℚ) :
    GoodAsteroid (regionSpawnedAsteroid e c) := by
  obtain ⟨h6, h11⟩ := numVertices_mem he
  obtain ⟨h1, h3⟩ := cat_hp_mem e.categoryName
  have hlen : (regionSpawnedAsteroid e c).points.length = e.numVertices := by
    simp [regionSpawnedAsteroid, shape_length]
  exact ⟨h1, h3, by omega, by omega⟩

theorem offSpawnedAsteroid_good {e : SpawnEnv} (he : e.Valid) (worldView : Rect)
    (c : ℚ × ℚ) : GoodAsteroid (offSpawnedAsteroid e worldView c) := by
  obtain ⟨h6, h11⟩ := numVertices_mem he
  obtain ⟨h1, h3⟩ := cat_hp_mem e.categoryName
  have hlen : (offSpawnedAsteroid e worldView c).points.length = e.numVertices := by
    simp [offSpawnedAsteroid, shape_length]
  exact ⟨h1, h3, by omega, by omega⟩

theorem inViewSpawnedAsteroid_good {e : SpawnEnv} (he : e.Valid) (c : ℚ × ℚ) :
    GoodAsteroid (inViewSpawnedAsteroid e c) := by
  obtain ⟨h6, h11⟩ := numVertices_mem he
  obtain ⟨h1, h3⟩ := cat_hp_mem e.categoryName
  have hlen : (inViewSpawnedAsteroid e c).points.length = e.numVertices := by
    simp [inViewSpawnedAsteroid, shape_length]
  exact ⟨h1, h3, by omega, by omega⟩

theorem applyAt_mem (f : Asteroid → Option Asteroid) (l : List Asteroid) (i : ℕ)
    (b : Asteroid) (hb : b ∈ applyAt f l i) : b ∈ l ∨ ∃ a ∈ l, f a = some b := by
  induction l generalizing i with
  | nil => exact absurd hb (by simp [applyAt])
  | cons a rest ih =>
    cases i with
    | zero =>
      unfold applyAt at hb
      rcases hfa : f a with _ | a'
      · rw [hfa] at hb; exact Or.inl (List.mem_cons_of_mem a hb)
      · rw [hfa] at hb
        rcases List.mem_cons.mp hb with hb | hb
        · exact Or.inr ⟨a, List.mem_cons_self a rest, hb ▸ hfa⟩
        · exact Or.inl (List.mem_cons_of_mem a hb)
    | succ i =>
      unfold applyAt at hb
      rcases List.mem_cons.mp hb with hb | hb
      · exact Or.inl (hb ▸ List.mem_cons_self a rest)
      · rcases ih i hb with h | ⟨a', ha', hfa'⟩
        · exact Or.inl (List.mem_cons_of_mem a h)
        · exact Or.inr ⟨a', List.mem_cons_of_mem a ha', hfa'⟩

theorem updatePositions_mem (l : List Asteroid) (ps : List (ℚ × ℚ)) (b : Asteroid)
    (hb : b ∈ updatePositions l ps) :
    ∃ a ∈ l, b.hitPoints = a.hitPoints ∧ b.points = a.points := by
  induction l generalizing ps with
  | nil => exact absurd hb (by simp [updatePositions])
  | cons a rest ih =>
    cases ps with
    | nil =>
      unfold updatePositions at hb
      exact ⟨b, hb, rfl, rfl⟩
    | cons p ps =>
      unfold updatePositions at hb
      rcases List.mem_cons.mp hb with hb | hb
      · exact ⟨a, List.mem_cons_self a rest, by simp [hb], by simp [hb]⟩
      · obtain ⟨a', ha', h1, h2⟩ := ih ps hb
        exact ⟨a', List.mem_cons_of_mem a ha', h1, h2⟩

theorem handleBulletAsteroidCollision_good {a b : Asteroid} (ha : GoodAsteroid a)
    (hb : (handleBulletAsteroidCollision a).asteroid = some b) : GoodAsteroid b := by
  obtain ⟨h1, h2, h3, h4⟩ := ha
  unfold handleBulletAsteroidCollision at hb
  by_cases hg : ¬ (a.active && a.hasBody)
  · rw [if_pos hg] at hb
    injection hb with hb'
    cases hb'
    exact ⟨h1, h2, h3, h4⟩
  · rw [if_neg hg] at hb
    by_cases hhp : a.hitPoints - 1 ≤ 0
    · rw [if_pos hhp] at hb
      exact absurd hb (by simp)
    · rw [if_neg hhp] at hb
      by_cases hflash : ¬ a.isHit
      · rw [if_pos hflash] at hb
        injection hb with hb'
        cases hb'
        exact ⟨show (0 : ℤ) < a.hitPoints - 1 by omega,
               show a.hitPoints - 1 ≤ 3 by omega, h3, h4⟩
      · rw [if_neg hflash] at hb
        injection hb with hb'
        cases hb'
        exact ⟨show (0 : ℤ) < a.hitPoints - 1 by omega,
               show a.hitPoints - 1 ≤ 3 by omega, h3, h4⟩

theorem handlePlayerAsteroidCollision_good {a b : Asteroid} (ha : GoodAsteroid a)
    (hb : handlePlayerAsteroidCollision a = some b) : GoodAsteroid b := by
  unfold handlePlayerAsteroidCollision at hb
  by_cases hg : a.active && a.hasBody
  · simp [hg] at hb
  · simp only [hg, if_neg, Bool.not_eq_true] at hb
    have hb' := Option.some_inj.mp (by simpa [hg] using hb)
    exact hb' ▸ ha

theorem flashRevert_good {a : Asteroid} (ha : GoodAsteroid a) :
    GoodAsteroid (flashRevert a) := by
  unfold flashRevert
  split
  · obtain ⟨h1, h2, h3, h4⟩ := ha
    exact ⟨h1, h2, h3, h4⟩
  · exact ha

theorem spawnAsteroidInRegion_inv {e : SpawnEnv} (he : e.Valid) (worldView : Rect)
    {asteroids : List Asteroid} (hw : ∀ a ∈ asteroids, GoodAsteroid a)
    (regionBounds : Rect) :
    ∀ b ∈ (spawnAsteroidInRegion e worldView asteroids regionBounds).2, GoodAsteroid b := by
  rcases spawnAsteroidInRegion_cases e worldView asteroids regionBounds with h | ⟨c, -, -, h⟩
  · rw [h]; exact hw
  · rw [h]
    intro b hb
    rcases List.mem_append.mp hb with hb | hb
    · exact hw b hb
    · rw [List.mem_singleton.mp hb]
      exact regionSpawnedAsteroid_good he c

theorem spawnAsteroid_inv {e : SpawnEnv} (he : e.Valid) (worldView : Rect)
    (playerVel : ℚ × ℚ) {asteroids : List Asteroid}
    (hw : ∀ a ∈ asteroids, GoodAsteroid a) :
    ∀ b ∈ (spawnAsteroid e worldView playerVel asteroids).2, GoodAsteroid b := by
  rcases spawnAsteroid_cases e worldView playerVel asteroids with h | ⟨c, -, -, h⟩
  · rw [h]; exact hw
  · rw [h]
    intro b hb
    rcases List.mem_append.mp hb with hb | hb
    · exact hw b hb
    · rw [List.mem_singleton.mp hb]
      exact offSpawnedAsteroid_good he worldView c

theorem spawnAsteroidInView_inv {e eFallback : SpawnEnv} (he : e.Valid)
    (hf : eFallback.Valid) (areaWidth areaHeight : ℚ) (worldView : Rect)
    (playerVel : ℚ × ℚ) {asteroids : List Asteroid}
    (hw : ∀ a ∈ asteroids, GoodAsteroid a) :
    ∀ b ∈ (spawnAsteroidInView e eFallback areaWidth areaHeight worldView playerVel
      asteroids).2, GoodAsteroid b := by
  rcases spawnAsteroidInView_cases e eFallback areaWidth areaHeight worldView playerVel
      asteroids with ⟨-, h⟩ | h | ⟨c, -, -, h⟩
  · rw [h]; exact spawnAsteroid_inv hf worldView playerVel hw
  · rw [h]; exact hw
  · rw [h]
    intro b hb
    rcases List.mem_append.mp hb with hb | hb
    · exact hw b hb
    · rw [List.mem_singleton.mp hb]
      exact inViewSpawnedAsteroid_good he c

theorem populateQuadrant_inv (envs : ℕ → SpawnEnv) (he : ∀ j, (envs j).Valid)
    (worldView quad : Rect) (n : ℕ) {asteroids : List Asteroid}
    (hw : ∀ a ∈ asteroids, GoodAsteroid a) :
    ∀ b ∈ populateQuadrant envs worldView quad n asteroids, GoodAsteroid b := by
  induction n generalizing asteroids with
  | zero => exact hw
  | succ n ih =>
    unfold populateQuadrant
    exact ih (spawnAsteroidInRegion_inv (he n) worldView hw quad)

theorem checkAndPopulateDistantAreas_inv (envs : Fin 4 → ℕ → SpawnEnv)
    (he : ∀ i j, (envs i j).Valid) (px py : ℚ) (worldView : Rect)
    {asteroids : List Asteroid} (hw : ∀ a ∈ asteroids, GoodAsteroid a) :
    ∀ b ∈ checkAndPopulateDistantAreas envs px py worldView asteroids, GoodAsteroid b := by
  unfold checkAndPopulateDistantAreas
  exact populateQuadrant_inv (envs 3) (he 3) worldView _ _
    (populateQuadrant_inv (envs 2) (he 2) worldView _ _
      (populateQuadrant_inv (envs 1) (he 1) worldView _ _
        (populateQuadrant_inv (envs 0) (he 0) worldView _ _ hw)))

theorem step_preserves_inv {w w' : World} (h : Step w w') (hw : WorldInv w) :
    WorldInv w' := by
  cases h with
  | inView e eFallback areaWidth areaHeight worldView playerVel _ he hf =>
    exact spawnAsteroidInView_inv he hf areaWidth areaHeight worldView playerVel hw
  | offscreen e worldView playerVel _ he =>
    exact spawnAsteroid_inv he worldView playerVel hw
  | region e worldView regionBounds _ he =>
    exact spawnAsteroidInRegion_inv he worldView hw regionBounds
  | densityTick envs px py worldView _ he =>
    exact checkAndPopulateDistantAreas_inv envs he px py worldView hw
  | bulletHit i _ =>
    intro b hb
    rcases applyAt_mem _ _ i b hb with hmem | ⟨a, ha, hfa⟩
    · exact hw b hmem
    · exact handleBulletAsteroidCollision_good (hw a ha) hfa
  | playerHit i _ =>
    intro b hb
    rcases applyAt_mem _ _ i b hb with hmem | ⟨a, ha, hfa⟩
    · exact hw b hmem
    · exact handlePlayerAsteroidCollision_good (hw a ha) hfa
  | revertFires i _ =>
    intro b hb
    rcases applyAt_mem _ _ i b hb with hmem | ⟨a, ha, hfa⟩
    · exact hw b hmem
    · exact (Option.some_inj.mp hfa) ▸ flashRevert_good (hw a ha)
  | cleanup worldView _ =>
    intro b hb
    exact hw b (List.mem_of_mem_filter hb)
  | physics ps _ =>
    intro b hb
    obtain ⟨a, ha, h1, h2⟩ := updatePositions_mem _ ps b hb
    obtain ⟨g1, g2, g3, g4⟩ := hw a ha
    exact ⟨h1 ▸ g1, h1 ▸ g2, h2 ▸ g3, h2 ▸ g4⟩

theorem reachable_inv {w : World} (h : Reachable w) : WorldInv w := by
  induction h with
  | init => intro a ha; exact absurd ha (by simp)
  | step _ hstep ih => exact step_preserves_inv hstep ih

/-! ## Density-controller counting lemmas -/

theorem rect_contains_iff (r : Rect) (px py : ℚ) :
    r.contains px py = true ↔
      0 < r.width ∧ 0 < r.height ∧ r.x ≤ px ∧ px ≤ r.x + r.width ∧
        r.y ≤ py ∧ py ≤ r.y + r.height := by
  unfold Rect.contains
  by_cases h : r.width ≤ 0 ∨ r.height ≤ 0
  · rw [if_pos h]
    simp only [Bool.false_eq_true, false_iff]
    rintro ⟨h1, h2, -⟩
    rcases h with h | h
    · linarith
    · linarith
  · rw [if_neg h]
    push_neg at h
    simp only [decide_eq_true_eq]
    constructor
    · rintro ⟨h1, h2, h3, h4⟩
      exact ⟨h.1, h.2, h1, h2, h3, h4⟩
    · rintro ⟨-, -, h1, h2, h3, h4⟩
      exact ⟨h1, h2, h3, h4⟩

/-- Every quadrant is contained in the generation window (the source checks
both; the outer check is subsumed by the quadrant check). -/
theorem quadRect_contains_genRect (px py : ℚ) (worldView : Rect) (i : Fin 4)
    {qx qy : ℚ} (h : (quadRect px py worldView i).contains qx qy = true) :
    (genRect px py worldView).contains qx qy = true := by
  fin_cases i <;>
    (rw [rect_contains_iff] at h
     obtain ⟨hw, hh, h1, h2, h3, h4⟩ := h
     rw [rect_contains_iff]
     simp only [quadRect, genRect, Rect.left, Rect.top] at *
     refine ⟨by linarith, by linarith, by linarith, by linarith, by linarith, by linarith⟩)

/-- The claim's counting predicate: a live asteroid, outside the inner
exclusion rectangle, lying in quadrant `i` of the partition (boundary points
belong to the first quadrant containing them, in source order). -/
def quadrantLive (px py : ℚ) (worldView : Rect) (i : Fin 4) (a : Asteroid) : Prop :=
  a.active = true ∧ a.hasBody = true ∧
  (innerRect worldView).contains a.x a.y = false ∧
  (quadRect px py worldView i).contains a.x a.y = true ∧
  ∀ j : Fin 4, j < i → (quadRect px py worldView j).contains a.x a.y = false

instance (px py : ℚ) (worldView : Rect) (i : Fin 4) (a : Asteroid) :
    Decidable (quadrantLive px py worldView i a) := by
  unfold quadrantLive
  infer_instance

/-- Number of live asteroids the claim attributes to quadrant `i`. -/
def quadrantLiveCount (px py : ℚ) (worldView : Rect) (asteroids : List Asteroid)
    (i : Fin 4) : ℕ :=
  asteroids.countP fun a => decide (quadrantLive px py worldView i a)

theorem countedQuad_eq_some_iff (px py : ℚ) (worldView : Rect) (a : Asteroid) (i : Fin 4) :
    countedQuad px py worldView a = some i ↔ quadrantLive px py worldView i a := by
  have hlt01 : (0 : Fin 4) < 1 := by decide
  have hlt02 : (0 : Fin 4) < 2 := by decide
  have hlt03 : (0 : Fin 4) < 3 := by decide
  have hlt12 : (1 : Fin 4) < 2 := by decide
  have hlt13 : (1 : Fin 4) < 3 := by decide
  have hlt23 : (2 : Fin 4) < 3 := by decide
  constructor
  · intro h
    unfold countedQuad at h
    by_cases hab : (a.active && a.hasBody) = true
    · rw [if_neg (by simp [hab])] at h
      by_cases hinner : (innerRect worldView).contains a.x a.y = true
      · rw [if_pos hinner] at h
        exact absurd h (by simp)
      · rw [if_neg hinner] at h
        by_cases hgen : (genRect px py worldView).contains a.x a.y = true
        · rw [if_pos hgen] at h
          obtain ⟨hact, hbody⟩ : a.active = true ∧ a.hasBody = true := by simpa using hab
          by_cases h0 : (quadRect px py worldView 0).contains a.x a.y = true
          · rw [if_pos h0] at h
            cases Option.some_inj.mp h
            refine ⟨hact, hbody, Bool.eq_false_iff.mpr hinner, h0, ?_⟩
            intro j hj
            exact absurd hj (by simp [Fin.lt_def])
          · rw [if_neg h0] at h
            by_cases h1 : (quadRect px py worldView 1).contains a.x a.y = true
            · rw [if_pos h1] at h
              cases Option.some_inj.mp h
              refine ⟨hact, hbody, Bool.eq_false_iff.mpr hinner, h1, ?_⟩
              intro j hj
              have hj0 : j = 0 := by
                rcases Fin.lt_def.mp hj with h
                exact Fin.ext (by omega)
              exact hj0 ▸ Bool.eq_false_iff.mpr h0
            · rw [if_neg h1] at h
              by_cases h2 : (quadRect px py worldView 2).contains a.x a.y = true
              · rw [if_pos h2] at h
                cases Option.some_inj.mp h
                refine ⟨hact, hbody, Bool.eq_false_iff.mpr hinner, h2, ?_⟩
                intro j hj
                have := Fin.lt_def.mp hj
                have hj01 : j = 0 ∨ j = 1 := by
                  have hv : j.val = 0 ∨ j.val = 1 := by omega
                  rcases hv with h | h
                  · exact Or.inl (Fin.ext (by omega))
                  · exact Or.inr (Fin.ext (by omega))
                rcases hj01 with rfl | rfl
                · exact Bool.eq_false_iff.mpr h0
                · exact Bool.eq_false_iff.mpr h1
              · rw [if_neg h2] at h
                by_cases h3 : (quadRect px py worldView 3).contains a.x a.y = true
                · rw [if_pos h3] at h
                  cases Option.some_inj.mp h
                  refine ⟨hact, hbody, Bool.eq_false_iff.mpr hinner, h3, ?_⟩
                  intro j hj
                  have := Fin.lt_def.mp hj
                  have hj012 : j = 0 ∨ j = 1 ∨ j = 2 := by
                    have hv : j.val = 0 ∨ j.val = 1 ∨ j.val = 2 := by omega
                    rcases hv with h | h | h
                    · exact Or.inl (Fin.ext (by omega))
                    · exact Or.inr (Or.inl (Fin.ext (by omega)))
                    · exact Or.inr (Or.inr (Fin.ext (by omega)))
                  rcases hj012 with rfl | rfl | rfl
                  · exact Bool.eq_false_iff.mpr h0
                  · exact Bool.eq_false_iff.mpr h1
                  · exact Bool.eq_false_iff.mpr h2
                · rw [if_neg h3] at h
                  exact absurd h (by simp)
        · rw [if_neg hgen] at h
          exact absurd h (by simp)
    · rw [if_pos (by simpa using hab)] at h
      exact absurd h (by simp)
  · rintro ⟨hact, hbody, hinner, hquad, hfirst⟩
    have hab : (a.active && a.hasBody) = true := by simp [hact, hbody]
    have hgen := quadRect_contains_genRect px py worldView i hquad
    unfold countedQuad
    rw [if_neg (by simp [hab]), if_neg (by simp [hinner]), if_pos hgen]
    by_cases h0 : (quadRect px py worldView 0).contains a.x a.y = true
    · have hi : i = 0 := by
        by_contra hne
        have hlt : (0 : Fin 4) < i := by
          rw [Fin.lt_def]
          have : i.val ≠ 0 := fun hv => hne (Fin.ext (by omega))
          omega
        exact absurd h0 (by simp [hfirst 0 hlt])
      subst hi
      rw [if_pos h0]
    · rw [if_neg h0]
      have hi0 : i ≠ 0 := by
        rintro rfl
        exact h0 hquad
      by_cases h1 : (quadRect px py worldView 1).contains a.x a.y = true
      · have hi : i = 1 := by
          by_contra hne
          have hlt : (1 : Fin 4) < i := by
            rw [Fin.lt_def]
            have hv0 : i.val ≠ 0 := fun hv => hi0 (Fin.ext (by omega))
            have hv1 : i.val ≠ 1 := fun hv => hne (Fin.ext (by omega))
            omega
          exact absurd h1 (by simp [hfirst 1 hlt])
        subst hi
        rw [if_pos h1]
      · rw [if_neg h1]
        have hi1 : i ≠ 1 := by
          rintro rfl
          exact h1 hquad
        by_cases h2 : (quadRect px py worldView 2).contains a.x a.y = true
        · have hi : i = 2 := by
            by_contra hne
            have hlt : (2 : Fin 4) < i := by
              rw [Fin.lt_def]
              have hv0 : i.val ≠ 0 := fun hv => hi0 (Fin.ext (by omega))
              have hv1 : i.val ≠ 1 := fun hv => hi1 (Fin.ext (by omega))
              have hv2 : i.val ≠ 2 := fun hv => hne (Fin.ext (by omega))
              omega
            exact absurd h2 (by simp [hfirst 2 hlt])
          subst hi
          rw [if_pos h2]
        · rw [if_neg h2]
          have hi2 : i ≠ 2 := by
            rintro rfl
            exact h2 hquad
          have hi : i = 3 := by
            have hv0 : i.val ≠ 0 := fun hv => hi0 (Fin.ext (by omega))
            have hv1 : i.val ≠ 1 := fun hv => hi1 (Fin.ext (by omega))
            have hv2 : i.val ≠ 2 := fun hv => hi2 (Fin.ext (by omega))
            have hv : i.val < 4 := i.isLt
            exact Fin.ext (by omega)
          subst hi
          rw [if_pos hquad]

theorem asteroidCounts_eq_quadrantLiveCount (px py : ℚ) (worldView : Rect)
    (asteroids : List Asteroid) (i : Fin 4) :
    asteroidCounts px py worldView asteroids i
      = quadrantLiveCount px py worldView asteroids i := by
  unfold asteroidCounts quadrantLiveCount
  induction asteroids with
  | nil => rfl
  | cons a rest ih =>
    rw [List.countP_cons, List.countP_cons, ih]
    congr 1
    by_cases h : countedQuad px py worldView a = some i
    · simp [h, (countedQuad_eq_some_iff px py worldView a i).mp h]
    · simp only [h]
      simp [(countedQuad_eq_some_iff px py worldView a i).not.mp h, h]

/-! ## In-view / off-screen loop exhaustion -/

/-- Candidate `k` of the in-view loop fails: safe-zone hit or oracle overlap. -/
def inViewRejected (e : SpawnEnv) (areaWidth areaHeight : ℚ) (asteroids : List Asteroid)
    (k : ℕ) : Prop :=
  distLt (inViewCandidate e areaWidth areaHeight k).1
      (inViewCandidate e areaWidth areaHeight k).2 (areaWidth / 2) (areaHeight / 2)
      PLAYER_INITIAL_SAFE_ZONE_RADIUS = true ∨
    overlapsAnyExact e.visualSize (inViewCandidate e areaWidth areaHeight k).1
      (inViewCandidate e areaWidth areaHeight k).2 (e.categoryName.minSize : ℚ) asteroids
      = true

instance (e : SpawnEnv) (areaWidth areaHeight : ℚ) (asteroids : List Asteroid) (k : ℕ) :
    Decidable (inViewRejected e areaWidth areaHeight asteroids k) := by
  unfold inViewRejected
  infer_instance

theorem inViewFindSpot_all_rejected (e : SpawnEnv) (areaWidth areaHeight : ℚ)
    (asteroids : List Asteroid) (fuel k : ℕ)
    (h : ∀ j, k ≤ j → j < k + fuel → inViewRejected e areaWidth areaHeight asteroids j) :
    inViewFindSpot e areaWidth areaHeight asteroids fuel k = none := by
  induction fuel generalizing k with
  | zero => rfl
  | succ n ih =>
    have hk := h k le_rfl (by omega)
    have ihk := ih (k + 1) (fun j h1 h2 => h j (by omega) (by omega))
    unfold inViewFindSpot
    rcases hs : distLt (inViewCandidate e areaWidth areaHeight k).1
        (inViewCandidate e areaWidth areaHeight k).2 (areaWidth / 2) (areaHeight / 2)
        PLAYER_INITIAL_SAFE_ZONE_RADIUS with _ | _
    · have hov : overlapsAnyExact e.visualSize (inViewCandidate e areaWidth areaHeight k).1
          (inViewCandidate e areaWidth areaHeight k).2 (e.categoryName.minSize : ℚ)
          asteroids = true := by
        rcases hk with hk | hk
        · rw [hs] at hk; exact absurd hk (by simp)
        · exact hk
      simp only [hs, hov, Bool.false_eq_true, if_false, if_true, ihk]
    · simp only [hs, if_true, ihk]

/-- Candidate `k` of the off-screen loop fails (only the oracle rejects there). -/
def offRejected (e : SpawnEnv) (worldView : Rect) (asteroids : List Asteroid) (edge : ℤ)
    (k : ℕ) : Prop :=
  overlapsAny e.visualSize (offCandidate e worldView edge k).1
    (offCandidate e worldView edge k).2 (e.categoryName.minSize : ℚ) asteroids = true

instance (e : SpawnEnv) (worldView : Rect) (asteroids : List Asteroid) (edge : ℤ) (k : ℕ) :
    Decidable (offRejected e worldView asteroids edge k) := by
  unfold offRejected
  infer_instance

theorem offFindSpot_all_rejected (e : SpawnEnv) (worldView : Rect)
    (asteroids : List Asteroid) (edge : ℤ) (fuel k : ℕ)
    (h : ∀ j, k ≤ j → j < k + fuel → offRejected e worldView asteroids edge j) :
    offFindSpot e worldView asteroids edge fuel k = none := by
  induction fuel generalizing k with
  | zero => rfl
  | succ n ih =>
    have hk := h k le_rfl (by omega)
    have ihk := ih (k + 1) (fun j h1 h2 => h j (by omega) (by omega))
    unfold offFindSpot
    unfold offRejected at hk
    simp only [hk, if_true, ihk]

theorem spawnAsteroid_all_rejected (e : SpawnEnv) (worldView : Rect) (playerVel : ℚ × ℚ)
    (asteroids : List Asteroid)
    (h : ∀ k < SPAWN_MAX_RETRIES,
      offRejected e worldView asteroids (chooseEdge e playerVel.1 playerVel.2) k) :
    spawnAsteroid e worldView playerVel asteroids = (none, asteroids) := by
  have hf := offFindSpot_all_rejected e worldView asteroids
    (chooseEdge e playerVel.1 playerVel.2) SPAWN_MAX_RETRIES 0
    (fun j _ h2 => h j (by omega))
  unfold spawnAsteroid
  simp only [hf]

theorem spawnAsteroidInView_exhausted (e eFallback : SpawnEnv) (areaWidth areaHeight : ℚ)
    (worldView : Rect) (playerVel : ℚ × ℚ) (asteroids : List Asteroid)
    (h : ∀ k < SPAWN_MAX_RETRIES * 2, inViewRejected e areaWidth areaHeight asteroids k) :
    spawnAsteroidInView e eFallback areaWidth areaHeight worldView playerVel asteroids
      = spawnAsteroid eFallback worldView playerVel asteroids := by
  have hf := inViewFindSpot_all_rejected e areaWidth areaHeight asteroids
    (SPAWN_MAX_RETRIES * 2) 0 (fun j _ h2 => h j (by omega))
  unfold spawnAsteroidInView
  rw [hf]

/-! ## Concrete fixtures for witnesses -/

/-- An environment whose every `Math.random()` draw returns `q`,
with a physics body always granted. -/
def constEnv (q : ℚ) : SpawnEnv :=
  { uCat := q, uSize := q, uVerts := q, uX := fun _ => q, uY := fun _ => q
    uEdge := q, uEdgeSel := q, uAngle := q, uSpeed := q, uRot := q
    uTargetX := q, uTargetY := q, uShapeA := fun _ => q, uShapeR := fun _ => q
    bodyOk := true }

theorem constEnv_valid {q : ℚ} (h0 : 0 ≤ q) (h1 : q < 1) : (constEnv q).Valid :=
  ⟨⟨h0, h1⟩, ⟨h0, h1⟩, ⟨h0, h1⟩, fun _ => ⟨h0, h1⟩, fun _ => ⟨h0, h1⟩, ⟨h0, h1⟩,
   ⟨h0, h1⟩, ⟨h0, h1⟩, ⟨h0, h1⟩, ⟨h0, h1⟩, ⟨h0, h1⟩, ⟨h0, h1⟩,
   fun _ => ⟨h0, h1⟩, fun _ => ⟨h0, h1⟩⟩

/-- A plain circular asteroid used to state oracle properties. -/
def circleAsteroid (x y radius : ℚ) : Asteroid :=
  { x := x, y := y, category := Cat.XS, hitPoints := 1, visualSize := radius
    points := [], isHit := false, fill := none, colliderRadius := radius * (9 / 10)
    velocity := (0, 0), angularVelocity := 0, active := true, hasBody := true }

theorem constEnv0_categoryName : (constEnv 0).categoryName = Cat.XS := by
  unfold SpawnEnv.categoryName constEnv activeCategories
  norm_num

theorem constEnv0_visualSize : (constEnv 0).visualSize = 10 := by
  unfold SpawnEnv.visualSize mathBetween
  rw [constEnv0_categoryName]
  unfold Cat.minSize Cat.maxSize constEnv
  norm_num

/-- The oracle's distance test always fires at distance zero. -/
theorem distLt_zero_dist (x y b : ℚ) (hb : 0 < b) : distLt x y x y b = true := by
  unfold distLt
  simp only [decide_eq_true_eq]
  refine ⟨hb, ?_⟩
  have : (x - x) ^ 2 + (y - y) ^ 2 = 0 := by ring
  rw [this]
  positivity

/-- A still-active asteroid whose hit points already reached 0, mid-flash —
the state the flash-revert guard is supposed to protect against. -/
def zeroHpFlashing : Asteroid :=
  { x := 0, y := 0, category := Cat.XS, hitPoints := 0, visualSize := 10
    points := [], isHit := true
    fill := some (ASTEROID_HIT_FILL_COLOR, ASTEROID_HIT_FILL_ALPHA)
    colliderRadius := 9, velocity := (0, 0), angularVelocity := 0
    active := true, hasBody := true }

/-- A flashing asteroid that will survive the next hit (2 hit points). -/
def flashingSurvivor : Asteroid :=
  { x := 0, y := 0, category := Cat.S, hitPoints := 2, visualSize := 20
    points := [], isHit := true
    fill := some (ASTEROID_HIT_FILL_COLOR, ASTEROID_HIT_FILL_ALPHA)
    colliderRadius := 18, velocity := (0, 0), angularVelocity := 0
    active := true, hasBody := true }

/-- A destroyed (inactive) asteroid, as left behind by `destroy()`. -/
def destroyedAsteroid : Asteroid :=
  { x := 0, y := 0, category := Cat.XS, hitPoints := 1, visualSize := 10
    points := [], isHit := true
    fill := some (ASTEROID_HIT_FILL_COLOR, ASTEROID_HIT_FILL_ALPHA)
    colliderRadius := 9, velocity := (0, 0), angularVelocity := 0
    active := false, hasBody := false }

/-! ## Oracle symmetry helpers -/

theorem distLt_comm (x1 y1 x2 y2 bound : ℚ) :
    distLt x1 y1 x2 y2 bound = distLt x2 y2 x1 y1 bound := by
  unfold distLt
  rw [decide_eq_decide]
  have hx : (x2 - x1) ^ 2 = (x1 - x2) ^ 2 := by ring
  have hy : (y2 - y1) ^ 2 = (y1 - y2) ^ 2 := by ring
  rw [hx, hy]

theorem overlapsAny_singleton_circle (cand x1 y1 x2 y2 r2 cm : ℚ) (hr2 : r2 ≠ 0) :
    overlapsAny cand x1 y1 cm [circleAsteroid x2 y2 r2]
      = distLt x1 y1 x2 y2 ((cand + r2) * SPAWN_CHECK_RADIUS_MULTIPLIER) := by
  unfold overlapsAny
  rw [List.any_cons, List.any_nil, Bool.or_false]
  have hact : (circleAsteroid x2 y2 r2).active = true := rfl
  have hbody : (circleAsteroid x2 y2 r2).hasBody = true := rfl
  rw [hact, hbody]
  simp only [Bool.true_and]
  rw [overlapsPair_eq_exact]
  unfold overlapsPairExact existingSizeOf
  have hvs : (circleAsteroid x2 y2 r2).visualSize = r2 := rfl
  rw [hvs, if_neg hr2]
  rfl

/-! ## Concrete rejection facts for the all-zero-randomness environment -/

/-- With all-zero randomness, every in-view candidate on a 100×100 screen is
`(10, 10)`, inside the 150-unit player safe zone around `(50, 50)`. -/
theorem inViewRejected_constEnv0 (asteroids : List Asteroid) (k : ℕ) :
    inViewRejected (constEnv 0) 100 100 asteroids k := by
  unfold inViewRejected
  left
  have hcand : inViewCandidate (constEnv 0) 100 100 k = (10, 10) := by
    unfold inViewCandidate floatBetween
    rw [constEnv0_visualSize]
    unfold constEnv
    norm_num
  rw [hcand]
  unfold distLt PLAYER_INITIAL_SAFE_ZONE_RADIUS
  simp only [decide_eq_true_eq]
  norm_num

/-- With zero player velocity and zero randomness the off-screen spawner
picks edge 0 (top). -/
theorem chooseEdge_constEnv0 : chooseEdge (constEnv 0) (0, 0).1 (0, 0).2 = 0 := by
  unfold chooseEdge
  rw [if_neg]
  · unfold mathBetween constEnv
    norm_num
  · unfold PLAYER_SPEED_THRESHOLD_FOR_BIAS
    norm_num

/-- With all-zero randomness every top-edge candidate of the off-screen
spawner on view `0,0,100,100` is `(-100, -100)`, which overlaps the asteroid
parked there. -/
theorem offRejected_constEnv0 (k : ℕ) :
    offRejected (constEnv 0) ⟨0, 0, 100, 100⟩ [circleAsteroid (-100) (-100) 10] 0 k := by
  unfold offRejected
  have hcand : offCandidate (constEnv 0) ⟨0, 0, 100, 100⟩ 0 k = (-100, -100) := by
    unfold offCandidate floatBetween SPAWN_BUFFER Rect.left Rect.right Rect.top Rect.bottom
    rw [if_pos rfl, constEnv0_visualSize]
    unfold constEnv
    norm_num
  rw [hcand, constEnv0_visualSize, constEnv0_categoryName]
  rw [overlapsAny_singleton_circle 10 (-100) (-100) (-100) (-100) 10 (Cat.XS.minSize : ℚ)
    (by norm_num)]
  apply distLt_zero_dist
  unfold SPAWN_CHECK_RADIUS_MULTIPLIER
  norm_num

/-- With all-zero randomness every region candidate in the degenerate region
at `(200, 200)` is `(200, 200)`, which overlaps the asteroid parked there. -/
theorem regionRejected_constEnv0 (k : ℕ) :
    regionRejected (constEnv 0) ⟨0, 0, 100, 100⟩ [circleAsteroid 200 200 10]
      ⟨200, 200, 0, 0⟩ k := by
  unfold regionRejected
  right
  have hcand : regionCandidate (constEnv 0) ⟨200, 200, 0, 0⟩ k = (200, 200) := by
    unfold regionCandidate floatBetween Rect.left Rect.right Rect.top Rect.bottom constEnv
    norm_num
  rw [hcand, constEnv0_visualSize, constEnv0_categoryName]
  rw [overlapsAny_singleton_circle 10 200 200 200 200 10 (Cat.XS.minSize : ℚ) (by norm_num)]
  apply distLt_zero_dist
  unfold SPAWN_CHECK_RADIUS_MULTIPLIER
  norm_num

/-- In an empty world with the region `⟨200,200,0,0⟩` away from the
`100 × 100` view, the region spawner accepts its very first candidate. -/
theorem regionFindSpot_constEnv0_empty :
    (regionFindSpot (constEnv 0) ⟨0, 0, 100, 100⟩ [] ⟨200, 200, 0, 0⟩
      SPAWN_MAX_RETRIES 0).1 = some (200, 200) := by
  have hcand : regionCandidate (constEnv 0) ⟨200, 200, 0, 0⟩ 0 = (200, 200) := by
    unfold regionCandidate floatBetween Rect.left Rect.right Rect.top Rect.bottom constEnv
    norm_num
  have hview : (Rect.mk 0 0 100 100).contains (200 : ℚ) 200 = false := by
    unfold Rect.contains
    rw [if_neg (by norm_num)]
    simp only [decide_eq_false_iff_not]
    rintro ⟨-, h2, -⟩
    norm_num at h2
  show (regionFindSpot (constEnv 0) ⟨0, 0, 100, 100⟩ [] ⟨200, 200, 0, 0⟩ (14 + 1) 0).1
    = some (200, 200)
  rw [regionFindSpot]
  rw [hcand, hview]
  simp [overlapsAny]

/-- Hence that spawn call produces exactly one asteroid: the one built at
`(200, 200)`. -/
theorem spawnAsteroidInRegion_constEnv0 :
    (World.mk (spawnAsteroidInRegion (constEnv 0) ⟨0, 0, 100, 100⟩
      (World.mk []).asteroids ⟨200, 200, 0, 0⟩).2).asteroids
    = [regionSpawnedAsteroid (constEnv 0) (200, 200)] := by
  show (spawnAsteroidInRegion (constEnv 0) ⟨0, 0, 100, 100⟩ [] ⟨200, 200, 0, 0⟩).2
    = [regionSpawnedAsteroid (constEnv 0) (200, 200)]
  unfold spawnAsteroidInRegion
  rw [regionFindSpot_constEnv0_empty]
  rfl

/-! ## Planar geometry toolkit for the polygon generator -/

/-- 2D cross product (signed area). -/
def cross2 (p q : ℝ × ℝ) : ℝ := p.1 * q.2 - p.2 * q.1

/-- Unit direction vector at angle `φ`. -/
noncomputable def dir (φ : ℝ) : ℝ × ℝ := (Real.cos φ, Real.sin φ)

/-- Edge `i` of the generated polygon ring: the segment from vertex `i` to
vertex `(i+1) mod numVertices` (the ring is closed). -/
noncomputable def polyEdge (avgRadius : ℝ) (numVertices : ℕ) (uA uR : ℕ → ℝ) (i : ℕ) :
    Set (ℝ × ℝ) :=
  segment ℝ (vtx avgRadius numVertices uA uR i)
    (vtx avgRadius numVertices uA uR ((i + 1) % numVertices))

theorem dir_add_two_pi (φ : ℝ) : dir (φ + 2 * Real.pi) = dir φ := by
  unfold dir
  rw [Real.cos_add_two_pi, Real.sin_add_two_pi]

theorem cross2_dir_dir (a b : ℝ) : cross2 (dir a) (dir b) = Real.sin (b - a) := by
  unfold cross2 dir
  rw [Real.sin_sub]
  ring

theorem cross2_comb (c p q : ℝ × ℝ) (α β : ℝ) :
    cross2 c (α • p + β • q) = α * cross2 c p + β * cross2 c q := by
  unfold cross2
  simp only [Prod.fst_add, Prod.snd_add, Prod.smul_fst, Prod.smul_snd, smul_eq_mul]
  ring

theorem vtx_eq_smul_dir (avgRadius : ℝ) (numVertices : ℕ) (uA uR : ℕ → ℝ) (i : ℕ) :
    vtx avgRadius numVertices uA uR i
      = vertexRadius avgRadius uR i • dir (vertexAngle numVertices uA i) := by
  unfold vtx dir
  rw [Prod.smul_mk, smul_eq_mul, smul_eq_mul]
  rw [mul_comm (Real.cos (vertexAngle numVertices uA i)),
    mul_comm (Real.sin (vertexAngle numVertices uA i))]

/-! ### Angle and radius bounds of the generator -/

theorem angleStep_pos {n : ℕ} (hn : 1 ≤ n) : 0 < angleStep n := by
  unfold angleStep
  have hnpos : (0 : ℝ) < n := by exact_mod_cast hn
  positivity

/-- The per-vertex angular perturbation. -/
noncomputable def vertexDelta (numVertices : ℕ) (uA : ℕ → ℝ) (i : ℕ) : ℝ :=
  vertexAngle numVertices uA i - i * angleStep numVertices

theorem vertexDelta_bounds {n : ℕ} {uA : ℕ → ℝ} (hn : 1 ≤ n) (i : ℕ)
    (hu : 0 ≤ uA i ∧ uA i < 1) :
    -(0.3 * angleStep n) ≤ vertexDelta n uA i ∧ vertexDelta n uA i < 0.3 * angleStep n := by
  have hs := angleStep_pos hn
  unfold vertexDelta vertexAngle floatBetweenR
  obtain ⟨h0, h1⟩ := hu
  constructor
  · nlinarith
  · nlinarith

theorem vertexAngle_eq (n : ℕ) (uA : ℕ → ℝ) (i : ℕ) :
    vertexAngle n uA i = i * angleStep n + vertexDelta n uA i := by
  unfold vertexDelta
  ring

theorem vertexAngle_strictMono {n : ℕ} {uA : ℕ → ℝ} (hn : 1 ≤ n)
    (hu : ∀ k, 0 ≤ uA k ∧ uA k < 1) {i j : ℕ} (hij : i < j) :
    vertexAngle n uA i < vertexAngle n uA j := by
  have hs := angleStep_pos hn
  have hdi := vertexDelta_bounds hn i (hu i)
  have hdj := vertexDelta_bounds hn j (hu j)
  rw [vertexAngle_eq n uA i, vertexAngle_eq n uA j]
  have hone : (i : ℝ) + 1 ≤ (j : ℝ) := by exact_mod_cast hij
  nlinarith

theorem vertexAngle_gap_lower {n : ℕ} {uA : ℕ → ℝ} (hn : 1 ≤ n)
    (hu : ∀ k, 0 ≤ uA k ∧ uA k < 1) (i : ℕ) :
    0.4 * angleStep n < vertexAngle n uA (i + 1) - vertexAngle n uA i := by
  have hs := angleStep_pos hn
  have hdi := vertexDelta_bounds hn i (hu i)
  have hdj := vertexDelta_bounds hn (i + 1) (hu (i + 1))
  rw [vertexAngle_eq n uA i, vertexAngle_eq n uA (i + 1)]
  push_cast
  nlinarith

theorem vertexAngle_gap_upper {n : ℕ} {uA : ℕ → ℝ} (hn : 1 ≤ n)
    (hu : ∀ k, 0 ≤ uA k ∧ uA k < 1) (i : ℕ) :
    vertexAngle n uA (i + 1) - vertexAngle n uA i < 1.6 * angleStep n := by
  have hs := angleStep_pos hn
  have hdi := vertexDelta_bounds hn i (hu i)
  have hdj := vertexDelta_bounds hn (i + 1) (hu (i + 1))
  rw [vertexAngle_eq n uA i, vertexAngle_eq n uA (i + 1)]
  push_cast
  nlinarith

theorem big_step_lt_pi {n : ℕ} (hn : 6 ≤ n) : 1.6 * angleStep n < Real.pi := by
  unfold angleStep
  have hpi := Real.pi_pos
  have hnpos : (0 : ℝ) < n := by positivity
  have hn6 : (6 : ℝ) ≤ n := by exact_mod_cast hn
  rw [mul_div_assoc', div_lt_iff₀ hnpos]
  nlinarith

theorem two_pi_eq_n_step {n : ℕ} (hn : 1 ≤ n) : 2 * Real.pi = n * angleStep n := by
  unfold angleStep
  have hnne : (n : ℝ) ≠ 0 := by
    have : (0 : ℝ) < n := by exact_mod_cast hn
    exact ne_of_gt this
  field_simp
  ring

/-- Closing gap of the ring: the angular distance from the last vertex up to
the first vertex plus a full turn lies strictly between `0.4` and `1.6`
steps. -/
theorem closing_gap_bounds {n : ℕ} {uA : ℕ → ℝ} (hn : 6 ≤ n)
    (hu : ∀ k, 0 ≤ uA k ∧ uA k < 1) :
    0.4 * angleStep n < (vertexAngle n uA 0 + 2 * Real.pi) - vertexAngle n uA (n - 1) ∧
    (vertexAngle n uA 0 + 2 * Real.pi) - vertexAngle n uA (n - 1) < 1.6 * angleStep n := by
  have hn1 : 1 ≤ n := by omega
  have hs := angleStep_pos hn1
  have hd0 := vertexDelta_bounds hn1 0 (hu 0)
  have hdn := vertexDelta_bounds hn1 (n - 1) (hu (n - 1))
  have h2pi := two_pi_eq_n_step hn1
  rw [vertexAngle_eq n uA 0, vertexAngle_eq n uA (n - 1)]
  have hcast : ((n - 1 : ℕ) : ℝ) = (n : ℝ) - 1 := by
    have : (1 : ℕ) ≤ n := hn1
    push_cast [Nat.cast_sub this]
    ring
  rw [hcast]
  constructor
  · push_cast
    nlinarith
  · push_cast
    nlinarith

/-! ### Cones and polar representations -/

theorem cross2_zero_right (c : ℝ × ℝ) : cross2 c 0 = 0 := by
  unfold cross2
  simp

theorem cross2_smul (c p : ℝ × ℝ) (d : ℝ) : cross2 c (d • p) = d * cross2 c p := by
  unfold cross2
  simp only [Prod.smul_fst, Prod.smul_snd, smul_eq_mul]
  ring

theorem dir_ne_zero (φ : ℝ) : dir φ ≠ 0 := by
  intro h
  have h1 : Real.cos φ = 0 := congrArg Prod.fst h
  have h2 : Real.sin φ = 0 := congrArg Prod.snd h
  have h3 := Real.sin_sq_add_cos_sq φ
  rw [h1, h2] at h3
  norm_num at h3

theorem comb_ne_zero {a b : ℝ} (hab : 0 < Real.sin (b - a)) {α β : ℝ} (_hα : 0 ≤ α)
    (hβ : 0 ≤ β) (hsum : 0 < α + β) : α • dir a + β • dir b ≠ 0 := by
  intro h
  have hca : cross2 (dir a) (α • dir a + β • dir b) = β * Real.sin (b - a) := by
    rw [cross2_comb, cross2_dir_dir, cross2_dir_dir, sub_self, Real.sin_zero]
    ring
  rw [h, cross2_zero_right] at hca
  have hβ0 : β = 0 := by
    rcases mul_eq_zero.mp hca.symm with h' | h'
    · exact h'
    · exact absurd h' (ne_of_gt hab)
  subst hβ0
  rw [zero_smul, add_zero] at h
  rcases smul_eq_zero.mp h with h' | h'
  · rw [h'] at hsum
    norm_num at hsum
  · exact dir_ne_zero a h'

/-- Any nonzero nonnegative combination of two directions less than a
half-turn apart is a positive multiple of a direction between them. -/
theorem cone_polar {a b : ℝ} (h0 : 0 < b - a) (hπ : b - a < Real.pi) {α β : ℝ}
    (hα : 0 ≤ α) (hβ : 0 ≤ β) (hsum : 0 < α + β) :
    ∃ φ ∈ Set.Icc a b, ∃ rr : ℝ, 0 < rr ∧ α • dir a + β • dir b = rr • dir φ := by
  set P := α • dir a + β • dir b with hP
  have hsin : 0 < Real.sin (b - a) := Real.sin_pos_of_pos_of_lt_pi h0 hπ
  have hPne : P ≠ 0 := comb_ne_zero hsin hα hβ hsum
  have hfa : cross2 (dir a) P = β * Real.sin (b - a) := by
    rw [hP, cross2_comb, cross2_dir_dir, cross2_dir_dir, sub_self, Real.sin_zero]
    ring
  have hfb : cross2 (dir b) P = -(α * Real.sin (b - a)) := by
    rw [hP, cross2_comb, cross2_dir_dir, cross2_dir_dir, sub_self, Real.sin_zero,
      show a - b = -(b - a) by ring, Real.sin_neg]
    ring
  have hcont : ContinuousOn (fun φ => cross2 (dir φ) P) (Set.Icc a b) := by
    apply Continuous.continuousOn
    unfold cross2 dir
    exact (Real.continuous_cos.mul continuous_const).sub (Real.continuous_sin.mul
      continuous_const)
  have hmem : (0 : ℝ) ∈ Set.Icc (cross2 (dir b) P) (cross2 (dir a) P) := by
    constructor
    · rw [hfb]
      nlinarith
    · rw [hfa]
      nlinarith
  obtain ⟨φ, hφmem, hφ0⟩ := intermediate_value_Icc' (by linarith : a ≤ b) hcont hmem
  refine ⟨φ, hφmem, ?_⟩
  set d := P.1 * Real.cos φ + P.2 * Real.sin φ with hd
  have hrel : Real.cos φ * P.2 - Real.sin φ * P.1 = 0 := hφ0
  have hdecomp : P = d • dir φ := by
    have hsc := Real.sin_sq_add_cos_sq φ
    have h1 : P.1 = d * Real.cos φ := by
      rw [hd]
      linear_combination (-Real.sin φ) * hrel + (-P.1) * hsc
    have h2 : P.2 = d * Real.sin φ := by
      rw [hd]
      linear_combination (Real.cos φ) * hrel + (-P.2) * hsc
    have hPP : P = (P.1, P.2) := rfl
    rw [hPP, h1, h2]
    unfold dir
    rw [Prod.smul_mk, smul_eq_mul, smul_eq_mul]
  rcases lt_trichotomy d 0 with hdlt | hdeq | hdgt
  · exfalso
    have hca : cross2 (dir a) P = d * Real.sin (φ - a) := by
      rw [hdecomp, cross2_smul, cross2_dir_dir]
    have hsinφa : 0 ≤ Real.sin (φ - a) := by
      apply Real.sin_nonneg_of_nonneg_of_le_pi
      · linarith [hφmem.1]
      · linarith [hφmem.2]
    have heq : β * Real.sin (b - a) = d * Real.sin (φ - a) := by rw [← hfa, hca]
    have hzero : β * Real.sin (b - a) = 0 := by
      apply le_antisymm
      · rw [heq]
        exact mul_nonpos_of_nonpos_of_nonneg (le_of_lt hdlt) hsinφa
      · positivity
    have hβ0 : β = 0 := by
      rcases mul_eq_zero.mp hzero with h' | h'
      · exact h'
      · exact absurd h' (ne_of_gt hsin)
    have hsinφa0 : Real.sin (φ - a) = 0 := by
      have hd0 : d * Real.sin (φ - a) = 0 := by rw [← heq, hzero]
      rcases mul_eq_zero.mp hd0 with h' | h'
      · exact absurd h' (ne_of_lt hdlt)
      · exact h'
    have hφa : φ = a := by
      have hrange1 : -Real.pi < φ - a := by
        have := Real.pi_pos
        linarith [hφmem.1]
      have hrange2 : φ - a < Real.pi := by linarith [hφmem.2]
      have := (Real.sin_eq_zero_iff_of_lt_of_lt hrange1 hrange2).mp hsinφa0
      linarith
    have hαpos : 0 < α := by
      rw [hβ0] at hsum
      linarith
    have hPa : P = α • dir a := by rw [hP, hβ0, zero_smul, add_zero]
    have hda : d = α := by
      rw [hd, hφa, hPa]
      unfold dir
      simp only [Prod.smul_fst, Prod.smul_snd, smul_eq_mul]
      nlinarith [Real.sin_sq_add_cos_sq a]
    linarith
  · exfalso
    rw [hdeq, zero_smul] at hdecomp
    exact hPne hdecomp
  · exact ⟨d, hdgt, hdecomp⟩

theorem dir_eq_two_pi_int {φ ψ : ℝ} (h : dir φ = dir ψ) :
    ∃ k : ℤ, ψ - φ = 2 * Real.pi * k := by
  have hc : Real.cos φ = Real.cos ψ := congrArg Prod.fst h
  have hs : Real.sin φ = Real.sin ψ := congrArg Prod.snd h
  have h1 : Real.cos (ψ - φ) = 1 := by
    rw [Real.cos_sub, ← hc, ← hs]
    nlinarith [Real.sin_sq_add_cos_sq φ]
  obtain ⟨k, hk⟩ := (Real.cos_eq_one_iff _).mp h1
  exact ⟨k, by rw [← hk]; ring⟩

theorem smul_dir_inj {r1 r2 φ ψ : ℝ} (h1 : 0 < r1) (h2 : 0 < r2)
    (h : r1 • dir φ = r2 • dir ψ) : r1 = r2 ∧ dir φ = dir ψ := by
  have hx : r1 * Real.cos φ = r2 * Real.cos ψ := congrArg Prod.fst h
  have hy : r1 * Real.sin φ = r2 * Real.sin ψ := congrArg Prod.snd h
  have e1 := Real.sin_sq_add_cos_sq φ
  have e2 := Real.sin_sq_add_cos_sq ψ
  have hr : r1 ^ 2 = r2 ^ 2 := by
    linear_combination (-(r1 ^ 2)) * e1 + r2 ^ 2 * e2
      + (r1 * Real.cos φ + r2 * Real.cos ψ) * hx
      + (r1 * Real.sin φ + r2 * Real.sin ψ) * hy
  have hprod : (r1 - r2) * (r1 + r2) = 0 := by linear_combination hr
  have hrr : r1 = r2 := by
    rcases mul_eq_zero.mp hprod with h' | h'
    · linarith
    · linarith
  refine ⟨hrr, ?_⟩
  subst hrr
  have hcos : Real.cos φ = Real.cos ψ := mul_left_cancel₀ (ne_of_gt h1) hx
  have hsin : Real.sin φ = Real.sin ψ := mul_left_cancel₀ (ne_of_gt h1) hy
  unfold dir
  rw [hcos, hsin]

/-! ### Edges of the generated ring -/

noncomputable def edgeLow (n : ℕ) (uA : ℕ → ℝ) (i : ℕ) : ℝ := vertexAngle n uA i

/-- Upper angle of edge `i`: the next vertex angle, lifted by a full turn for
the closing edge. -/
noncomputable def edgeHigh (n : ℕ) (uA : ℕ → ℝ) (i : ℕ) : ℝ :=
  if i = n - 1 then vertexAngle n uA 0 + 2 * Real.pi else vertexAngle n uA (i + 1)

theorem vertexRadius_bounds {r : ℝ} (hr : 0 < r) {uR : ℕ → ℝ} (i : ℕ)
    (hu : 0 ≤ uR i ∧ uR i < 1) :
    r * 0.6 ≤ vertexRadius r uR i ∧ vertexRadius r uR i ≤ r * 1.4 := by
  unfold vertexRadius floatBetweenR ASTEROID_JAGGEDNESS
  obtain ⟨h0, h1⟩ := hu
  constructor
  · nlinarith
  · nlinarith

theorem vertexRadius_pos {r : ℝ} (hr : 0 < r) {uR : ℕ → ℝ} (i : ℕ)
    (hu : 0 ≤ uR i ∧ uR i < 1) : 0 < vertexRadius r uR i := by
  have h := (vertexRadius_bounds hr i hu).1
  nlinarith

theorem vertexAngle_mono {n : ℕ} {uA : ℕ → ℝ} (hn : 1 ≤ n)
    (hu : ∀ k, 0 ≤ uA k ∧ uA k < 1) {i j : ℕ} (hij : i ≤ j) :
    vertexAngle n uA i ≤ vertexAngle n uA j := by
  rcases eq_or_lt_of_le hij with rfl | h
  · exact le_refl _
  · exact le_of_lt (vertexAngle_strictMono hn hu h)

theorem edge_gap {n : ℕ} {uA : ℕ → ℝ} (hn : 6 ≤ n) (hu : ∀ k, 0 ≤ uA k ∧ uA k < 1)
    {i : ℕ} (_hi : i < n) :
    0 < edgeHigh n uA i - edgeLow n uA i ∧ edgeHigh n uA i - edgeLow n uA i < Real.pi := by
  have hn1 : 1 ≤ n := by omega
  have hs := angleStep_pos hn1
  have hbig := big_step_lt_pi hn
  unfold edgeHigh edgeLow
  by_cases hlast : i = n - 1
  · rw [if_pos hlast, hlast]
    have hcg := closing_gap_bounds hn hu
    constructor
    · nlinarith [hcg.1]
    · nlinarith [hcg.2]
  · rw [if_neg hlast]
    have hlow := vertexAngle_gap_lower hn1 hu i
    have hupp := vertexAngle_gap_upper hn1 hu i
    constructor
    · nlinarith
    · nlinarith

theorem vtx_high (r : ℝ) {n : ℕ} (uA uR : ℕ → ℝ) (hn : 1 ≤ n) {i : ℕ} (_hi : i < n) :
    vtx r n uA uR ((i + 1) % n)
      = vertexRadius r uR ((i + 1) % n) • dir (edgeHigh n uA i) := by
  unfold edgeHigh
  by_cases hlast : i = n - 1
  · rw [if_pos hlast]
    have hmod : (i + 1) % n = 0 := by
      have h1 : i + 1 = n := by omega
      rw [h1, Nat.mod_self]
    rw [hmod, vtx_eq_smul_dir, dir_add_two_pi]
  · rw [if_neg hlast]
    have hmod : (i + 1) % n = i + 1 := Nat.mod_eq_of_lt (by omega)
    rw [hmod, vtx_eq_smul_dir]

theorem edge_decomp {r : ℝ} {n : ℕ} {uA uR : ℕ → ℝ} (hn : 1 ≤ n)
    {i : ℕ} (hi : i < n) {X : ℝ × ℝ} (hX : X ∈ polyEdge r n uA uR i) :
    ∃ s t : ℝ, 0 ≤ s ∧ 0 ≤ t ∧ s + t = 1 ∧
      X = (s * vertexRadius r uR i) • dir (edgeLow n uA i)
        + (t * vertexRadius r uR ((i + 1) % n)) • dir (edgeHigh n uA i) := by
  obtain ⟨s, t, hs, ht, hst, hXeq⟩ := hX
  refine ⟨s, t, hs, ht, hst, ?_⟩
  rw [← hXeq, vtx_eq_smul_dir r n uA uR i, vtx_high r uA uR hn hi, smul_smul, smul_smul]
  unfold edgeLow
  rfl

theorem edge_cross_high {r : ℝ} {n : ℕ} {uA uR : ℕ → ℝ} (hr : 0 < r) (hn : 6 ≤ n)
    (huA : ∀ k, 0 ≤ uA k ∧ uA k < 1) (huR : ∀ k, 0 ≤ uR k ∧ uR k < 1)
    {i : ℕ} (hi : i < n) {X : ℝ × ℝ} (hX : X ∈ polyEdge r n uA uR i) :
    cross2 (dir (edgeHigh n uA i)) X ≤ 0 ∧
      (cross2 (dir (edgeHigh n uA i)) X = 0 → X = vtx r n uA uR ((i + 1) % n)) := by
  obtain ⟨s, t, hs, ht, hst, hXeq⟩ := edge_decomp (by omega) hi hX
  have hg := edge_gap hn huA hi
  have hsin : 0 < Real.sin (edgeHigh n uA i - edgeLow n uA i) :=
    Real.sin_pos_of_pos_of_lt_pi hg.1 hg.2
  have hρi := vertexRadius_pos hr i (huR i)
  have hcross : cross2 (dir (edgeHigh n uA i)) X
      = -(s * vertexRadius r uR i * Real.sin (edgeHigh n uA i - edgeLow n uA i)) := by
    rw [hXeq, cross2_comb, cross2_dir_dir, cross2_dir_dir, sub_self, Real.sin_zero,
      show edgeLow n uA i - edgeHigh n uA i = -(edgeHigh n uA i - edgeLow n uA i) by ring,
      Real.sin_neg]
    ring
  constructor
  · rw [hcross]
    have hnn : 0 ≤ s * vertexRadius r uR i := mul_nonneg hs (le_of_lt hρi)
    nlinarith
  · intro h0
    rw [hcross] at h0
    have hs0 : s = 0 := by
      have h' : s * vertexRadius r uR i * Real.sin (edgeHigh n uA i - edgeLow n uA i)
          = 0 := by linarith
      rcases mul_eq_zero.mp h' with h'' | h''
      · rcases mul_eq_zero.mp h'' with h3 | h3
        · exact h3
        · exact absurd h3 (ne_of_gt hρi)
      · exact absurd h'' (ne_of_gt hsin)
    have ht1 : t = 1 := by linarith
    rw [hXeq, hs0, ht1]
    simp only [zero_mul, zero_smul, zero_add, one_mul]
    rw [← vtx_high r uA uR (by omega) hi]

theorem edge_cross_low {r : ℝ} {n : ℕ} {uA uR : ℕ → ℝ} (hr : 0 < r) (hn : 6 ≤ n)
    (huA : ∀ k, 0 ≤ uA k ∧ uA k < 1) (huR : ∀ k, 0 ≤ uR k ∧ uR k < 1)
    {i : ℕ} (hi : i < n) {X : ℝ × ℝ} (hX : X ∈ polyEdge r n uA uR i) :
    0 ≤ cross2 (dir (edgeLow n uA i)) X := by
  obtain ⟨s, t, hs, ht, hst, hXeq⟩ := edge_decomp (by omega) hi hX
  have hg := edge_gap hn huA hi
  have hsin : 0 < Real.sin (edgeHigh n uA i - edgeLow n uA i) :=
    Real.sin_pos_of_pos_of_lt_pi hg.1 hg.2
  have hρm := vertexRadius_pos hr ((i + 1) % n) (huR ((i + 1) % n))
  have hcross : cross2 (dir (edgeLow n uA i)) X
      = t * vertexRadius r uR ((i + 1) % n)
        * Real.sin (edgeHigh n uA i - edgeLow n uA i) := by
    rw [hXeq, cross2_comb, cross2_dir_dir, cross2_dir_dir, sub_self, Real.sin_zero]
    ring
  rw [hcross]
  have hnn : 0 ≤ t * vertexRadius r uR ((i + 1) % n) := mul_nonneg ht (le_of_lt hρm)
  nlinarith

theorem edge_polar {r : ℝ} {n : ℕ} {uA uR : ℕ → ℝ} (hr : 0 < r) (hn : 6 ≤ n)
    (huA : ∀ k, 0 ≤ uA k ∧ uA k < 1) (huR : ∀ k, 0 ≤ uR k ∧ uR k < 1)
    {i : ℕ} (hi : i < n) {X : ℝ × ℝ} (hX : X ∈ polyEdge r n uA uR i) :
    ∃ φ ∈ Set.Icc (edgeLow n uA i) (edgeHigh n uA i), ∃ rr : ℝ, 0 < rr ∧ X = rr • dir φ := by
  obtain ⟨s, t, hs, ht, hst, hXeq⟩ := edge_decomp (by omega) hi hX
  have hg := edge_gap hn huA hi
  have hρi := vertexRadius_pos hr i (huR i)
  have hρm := vertexRadius_pos hr ((i + 1) % n) (huR ((i + 1) % n))
  have hsum : 0 < s * vertexRadius r uR i + t * vertexRadius r uR ((i + 1) % n) := by
    rcases eq_or_lt_of_le hs with hseq | hslt
    · have ht1 : t = 1 := by linarith
      rw [← hseq, ht1]
      nlinarith
    · nlinarith [mul_nonneg ht (le_of_lt hρm)]
  obtain ⟨φ, hφ, rr, hrr, heq⟩ := cone_polar hg.1 hg.2 (mul_nonneg hs (le_of_lt hρi))
    (mul_nonneg ht (le_of_lt hρm)) hsum
  exact ⟨φ, hφ, rr, hrr, by rw [hXeq, heq]⟩

/-- Ordered version of non-adjacent edge disjointness. -/
theorem edges_disjoint_ordered {r : ℝ} {n : ℕ} {uA uR : ℕ → ℝ} (hr : 0 < r) (hn : 6 ≤ n)
    (huA : ∀ k, 0 ≤ uA k ∧ uA k < 1) (huR : ∀ k, 0 ≤ uR k ∧ uR k < 1)
    {i j : ℕ} (hij : i < j) (hj : j < n) (hne1 : j ≠ i + 1)
    (hne2 : ¬ (i = 0 ∧ j = n - 1)) :
    polyEdge r n uA uR i ∩ polyEdge r n uA uR j = ∅ := by
  have hn1 : 1 ≤ n := by omega
  have hpi := Real.pi_pos
  have hs := angleStep_pos hn1
  have hclosing := closing_gap_bounds hn huA
  ext X
  simp only [Set.mem_inter_iff, Set.mem_empty_iff_false, iff_false, not_and]
  intro hXi hXj
  have hi : i < n := by omega
  obtain ⟨φ, hφ, rr, hrr, heq⟩ := edge_polar hr hn huA huR hi hXi
  obtain ⟨ψ, hψ, rr', hrr', heq'⟩ := edge_polar hr hn huA huR hj hXj
  have hsame : rr • dir φ = rr' • dir ψ := by rw [← heq, ← heq']
  obtain ⟨-, hdir⟩ := smul_dir_inj hrr hrr' hsame
  obtain ⟨k, hk⟩ := dir_eq_two_pi_int hdir
  have hφup : φ ≤ vertexAngle n uA (i + 1) := by
    have h2 := hφ.2
    unfold edgeHigh at h2
    rw [if_neg (by omega : i ≠ n - 1)] at h2
    exact h2
  have hψlow : vertexAngle n uA j ≤ ψ := hψ.1
  have hmid : vertexAngle n uA (i + 1) < vertexAngle n uA j :=
    vertexAngle_strictMono hn1 huA (by omega)
  have hlt : φ < ψ := by linarith
  have hkpos : (1 : ℝ) ≤ (k : ℝ) := by
    have hkr : (0 : ℝ) < 2 * Real.pi * k := by
      rw [← hk]
      linarith
    have hk0 : (0 : ℝ) < (k : ℝ) := by nlinarith
    have hk0' : 0 < k := by exact_mod_cast hk0
    exact_mod_cast hk0'
  have hge : 2 * Real.pi ≤ ψ - φ := by
    rw [hk]
    nlinarith
  have hφlow : vertexAngle n uA i ≤ φ := hφ.1
  by_cases hj1 : j = n - 1
  · have hi1 : 1 ≤ i := by
      rcases Nat.eq_zero_or_pos i with h0 | h0
      · exact absurd ⟨h0, hj1⟩ hne2
      · omega
    have hψup : ψ ≤ vertexAngle n uA 0 + 2 * Real.pi := by
      have h2 := hψ.2
      unfold edgeHigh at h2
      rw [if_pos hj1] at h2
      exact h2
    have h01 : vertexAngle n uA 0 < vertexAngle n uA i :=
      vertexAngle_strictMono hn1 huA (by omega)
    linarith
  · have hψup : ψ ≤ vertexAngle n uA (j + 1) := by
      have h2 := hψ.2
      unfold edgeHigh at h2
      rw [if_neg hj1] at h2
      exact h2
    have hup2 : vertexAngle n uA (j + 1) ≤ vertexAngle n uA (n - 1) :=
      vertexAngle_mono hn1 huA (by omega)
    have h00 : vertexAngle n uA 0 ≤ vertexAngle n uA i := vertexAngle_mono hn1 huA (by omega)
    linarith [hclosing.1]

/-- Adjacent edges meet exactly at their shared vertex. -/
theorem edges_adjacent_inter {r : ℝ} {n : ℕ} {uA uR : ℕ → ℝ} (hr : 0 < r) (hn : 6 ≤ n)
    (huA : ∀ k, 0 ≤ uA k ∧ uA k < 1) (huR : ∀ k, 0 ≤ uR k ∧ uR k < 1)
    {i : ℕ} (hi : i < n) :
    polyEdge r n uA uR i ∩ polyEdge r n uA uR ((i + 1) % n)
      = {vtx r n uA uR ((i + 1) % n)} := by
  have hn1 : 1 ≤ n := by omega
  have hm : (i + 1) % n < n := Nat.mod_lt _ (by omega)
  apply Set.eq_singleton_iff_unique_mem.mpr
  constructor
  · exact ⟨right_mem_segment ℝ _ _, left_mem_segment ℝ _ _⟩
  · rintro X ⟨hXi, hXm⟩
    have hdir : dir (edgeLow n uA ((i + 1) % n)) = dir (edgeHigh n uA i) := by
      unfold edgeLow edgeHigh
      by_cases hlast : i = n - 1
      · rw [if_pos hlast]
        have hmod : (i + 1) % n = 0 := by
          have h1 : i + 1 = n := by omega
          rw [h1, Nat.mod_self]
        rw [hmod, dir_add_two_pi]
      · rw [if_neg hlast]
        have hmod : (i + 1) % n = i + 1 := Nat.mod_eq_of_lt (by omega)
        rw [hmod]
    have hhigh := edge_cross_high hr hn huA huR hi hXi
    have hlow := edge_cross_low hr hn huA huR hm hXm
    rw [hdir] at hlow
    exact hhigh.2 (le_antisymm hhigh.1 hlow)

/-! ## Claim theorems -/

/-- C1: on every density-controller tick, a quadrant of the generation window
holding `k` live asteroids outside the inner-exclusion rectangle receives
exactly `4 - k` region-constrained spawn requests when `k < 4`
(`targetPerQuadrant = 4`), and none when `k ≥ 4` — the request count is
`target - count` clamped at 0. -/
theorem claim_C1_density_request_counts (px py : ℚ) (worldView : Rect)
    (asteroids : List Asteroid) (i : Fin 4) :
    (quadrantLiveCount px py worldView asteroids i < 4 →
      spawnRequestCount px py worldView asteroids i
        = 4 - quadrantLiveCount px py worldView asteroids i) ∧
    (4 ≤ quadrantLiveCount px py worldView asteroids i →
      spawnRequestCount px py worldView asteroids i = 0) := by
  unfold spawnRequestCount
  rw [asteroidCounts_eq_quadrantLiveCount]
  unfold TARGET_ASTEROIDS_PER_QUADRANT
  constructor
  · intro hk
    rw [if_pos (by omega)]
    omega
  · intro hk
    rw [if_neg (by omega)]

theorem claim_C1_density_request_counts_witness :
    quadrantLiveCount 0 0 ⟨0, 0, 100, 100⟩ [] 0 < 4 ∧
    spawnRequestCount 0 0 ⟨0, 0, 100, 100⟩ [] 0
      = 4 - quadrantLiveCount 0 0 ⟨0, 0, 100, 100⟩ [] 0 :=
  ⟨by decide, (claim_C1_density_request_counts 0 0 ⟨0, 0, 100, 100⟩ [] 0).1 (by decide)⟩

/-- C2: a region-constrained spawn that creates an asteroid places it inside
the target rectangle and strictly outside the current viewport, appending it
to the group; on failure it returns null and leaves the group unchanged.
Visible candidates are rejected (the accepted spot never satisfies the
viewport-containment test). -/
theorem claim_C2_region_spawn_placement (e : SpawnEnv) (worldView regionBounds : Rect)
    (asteroids : List Asteroid) (he : e.Valid) (hw : 0 ≤ regionBounds.width)
    (hh : 0 ≤ regionBounds.height) :
    (∀ a : Asteroid,
      (spawnAsteroidInRegion e worldView asteroids regionBounds).1 = some a →
        regionBounds.left ≤ a.x ∧ a.x ≤ regionBounds.right ∧
        regionBounds.top ≤ a.y ∧ a.y ≤ regionBounds.bottom ∧
        worldView.contains a.x a.y = false ∧
        (spawnAsteroidInRegion e worldView asteroids regionBounds).2 = asteroids ++ [a]) ∧
    ((spawnAsteroidInRegion e worldView asteroids regionBounds).1 = none →
      (spawnAsteroidInRegion e worldView asteroids regionBounds).2 = asteroids) := by
  obtain ⟨-, -, -, hux, huy, -⟩ := he
  rcases spawnAsteroidInRegion_cases e worldView asteroids regionBounds with
    hcase | ⟨c, hfind, hbodyOk, hcase⟩
  · constructor
    · intro a ha
      rw [hcase] at ha
      exact absurd ha (by simp)
    · intro _
      rw [hcase]
  · obtain ⟨j, -, -, hc, hview, hov⟩ :=
      regionFindSpot_some e worldView asteroids regionBounds SPAWN_MAX_RETRIES 0 c hfind
    constructor
    · intro a ha
      rw [hcase] at ha
      have ha' : regionSpawnedAsteroid e c = a := by simpa using ha
      subst ha'
      have hax : (regionSpawnedAsteroid e c).x = c.1 := rfl
      have hay : (regionSpawnedAsteroid e c).y = c.2 := rfl
      have hcx : c.1 = floatBetween regionBounds.left regionBounds.right (e.uX j) := by
        rw [hc]; rfl
      have hcy : c.2 = floatBetween regionBounds.top regionBounds.bottom (e.uY j) := by
        rw [hc]; rfl
      have hxb := floatBetween_mem regionBounds.left regionBounds.right (hux j)
        (by unfold Rect.left Rect.right; linarith)
      have hyb := floatBetween_mem regionBounds.top regionBounds.bottom (huy j)
        (by unfold Rect.top Rect.bottom; linarith)
      refine ⟨?_, ?_, ?_, ?_, ?_, ?_⟩
      · rw [hax, hcx]; exact hxb.1
      · rw [hax, hcx]; exact hxb.2
      · rw [hay, hcy]; exact hyb.1
      · rw [hay, hcy]; exact hyb.2
      · rw [hax, hay]; exact hview
      · rw [hcase]
    · intro ha
      rw [hcase] at ha
      exact absurd ha (by simp)

theorem claim_C2_region_spawn_placement_witness :
    (constEnv (1 / 2)).Valid ∧ (0 : ℚ) ≤ (100 : ℚ) ∧
    ((∀ a : Asteroid,
      (spawnAsteroidInRegion (constEnv (1 / 2)) ⟨0, 0, 100, 100⟩ []
          ⟨200, 200, 100, 100⟩).1 = some a →
        (⟨200, 200, 100, 100⟩ : Rect).left ≤ a.x ∧
        a.x ≤ (⟨200, 200, 100, 100⟩ : Rect).right ∧
        (⟨200, 200, 100, 100⟩ : Rect).top ≤ a.y ∧
        a.y ≤ (⟨200, 200, 100, 100⟩ : Rect).bottom ∧
        (⟨0, 0, 100, 100⟩ : Rect).contains a.x a.y = false ∧
        (spawnAsteroidInRegion (constEnv (1 / 2)) ⟨0, 0, 100, 100⟩ []
          ⟨200, 200, 100, 100⟩).2 = [] ++ [a]) ∧
    ((spawnAsteroidInRegion (constEnv (1 / 2)) ⟨0, 0, 100, 100⟩ []
        ⟨200, 200, 100, 100⟩).1 = none →
      (spawnAsteroidInRegion (constEnv (1 / 2)) ⟨0, 0, 100, 100⟩ []
        ⟨200, 200, 100, 100⟩).2 = [])) :=
  ⟨constEnv_valid (by norm_num) (by norm_num), by norm_num,
   claim_C2_region_spawn_placement (constEnv (1 / 2)) ⟨0, 0, 100, 100⟩
     ⟨200, 200, 100, 100⟩ [] (constEnv_valid (by norm_num) (by norm_num))
     (by norm_num) (by norm_num)⟩

/-- C3: when every candidate the region strategy can sample is rejected
(visible or overlapping), `spawnAsteroidInRegion` returns null, leaves the
live set unchanged, and the retry loop samples exactly `SPAWN_MAX_RETRIES`
(15) candidates.  The embedded function is total, so no exception is
possible. -/
theorem claim_C3_region_spawn_exhaustion (e : SpawnEnv) (worldView regionBounds : Rect)
    (asteroids : List Asteroid)
    (h : ∀ k < SPAWN_MAX_RETRIES, regionRejected e worldView asteroids regionBounds k) :
    spawnAsteroidInRegion e worldView asteroids regionBounds = (none, asteroids) ∧
    (regionFindSpot e worldView asteroids regionBounds SPAWN_MAX_RETRIES 0).2
      = SPAWN_MAX_RETRIES := by
  have hf := regionFindSpot_all_rejected e worldView asteroids regionBounds
    SPAWN_MAX_RETRIES 0 (fun j _ h2 => h j (by omega))
  constructor
  · unfold spawnAsteroidInRegion
    rw [hf]
  · rw [hf]

theorem claim_C3_region_spawn_exhaustion_witness :
    (∀ k < SPAWN_MAX_RETRIES,
      regionRejected (constEnv 0) ⟨0, 0, 100, 100⟩ [circleAsteroid 200 200 10]
        ⟨200, 200, 0, 0⟩ k) ∧
    spawnAsteroidInRegion (constEnv 0) ⟨0, 0, 100, 100⟩ [circleAsteroid 200 200 10]
      ⟨200, 200, 0, 0⟩ = (none, [circleAsteroid 200 200 10]) ∧
    (regionFindSpot (constEnv 0) ⟨0, 0, 100, 100⟩ [circleAsteroid 200 200 10]
      ⟨200, 200, 0, 0⟩ SPAWN_MAX_RETRIES 0).2 = SPAWN_MAX_RETRIES :=
  ⟨fun k _ => regionRejected_constEnv0 k,
   claim_C3_region_spawn_exhaustion (constEnv 0) ⟨0, 0, 100, 100⟩
     ⟨200, 200, 0, 0⟩ [circleAsteroid 200 200 10] (fun k _ => regionRejected_constEnv0 k)⟩

/-- C4: the overlap oracle declares overlap for two circles exactly when the
Euclidean distance of their centers is below `(r1 + r2) * 1.2`; the relation
is symmetric; and the literal case — circles of radius 10 at `(0,0)` and
`(15,0)` — overlaps, since the required distance 24 exceeds the actual 15. -/
theorem claim_C4_oracle_exact_symmetric :
    (∀ x1 y1 r1 x2 y2 r2 cm1 cm2 : ℚ, 0 < r1 → 0 < r2 →
      ((overlapsAny r1 x1 y1 cm1 [circleAsteroid x2 y2 r2] = true) ↔
        Real.sqrt (((x2 : ℝ) - x1) ^ 2 + ((y2 : ℝ) - y1) ^ 2)
          < (((r1 + r2) * SPAWN_CHECK_RADIUS_MULTIPLIER : ℚ) : ℝ)) ∧
      overlapsAny r1 x1 y1 cm1 [circleAsteroid x2 y2 r2]
        = overlapsAny r2 x2 y2 cm2 [circleAsteroid x1 y1 r1]) ∧
    overlapsAny 10 0 0 10 [circleAsteroid 15 0 10] = true := by
  constructor
  · intro x1 y1 r1 x2 y2 r2 cm1 cm2 hr1 hr2
    constructor
    · rw [overlapsAny_singleton_circle _ _ _ _ _ _ _ (ne_of_gt hr2)]
      exact distLt_iff_sqrt x1 y1 x2 y2 _
    · rw [overlapsAny_singleton_circle _ _ _ _ _ _ _ (ne_of_gt hr2),
        overlapsAny_singleton_circle _ _ _ _ _ _ _ (ne_of_gt hr1),
        distLt_comm, add_comm r1 r2]
  · rw [overlapsAny_singleton_circle 10 0 0 15 0 10 10 (by norm_num)]
    unfold distLt SPAWN_CHECK_RADIUS_MULTIPLIER
    simp only [decide_eq_true_eq]
    norm_num

theorem claim_C4_oracle_exact_symmetric_witness :
    (0 : ℚ) < 10 ∧
    ((overlapsAny 10 0 0 10 [circleAsteroid 15 0 10] = true) ↔
      Real.sqrt ((((15 : ℚ) : ℝ) - (0 : ℚ)) ^ 2 + (((0 : ℚ) : ℝ) - (0 : ℚ)) ^ 2)
        < ((((10 : ℚ) + 10) * SPAWN_CHECK_RADIUS_MULTIPLIER : ℚ) : ℝ)) ∧
    overlapsAny 10 0 0 10 [circleAsteroid 15 0 10]
      = overlapsAny 10 15 0 10 [circleAsteroid 0 0 10] :=
  ⟨by norm_num,
   claim_C4_oracle_exact_symmetric.1 0 0 10 15 0 10 10 10 (by norm_num) (by norm_num)⟩

/-- C5: the coarse bounding-box pre-filter never produces a false negative —
pair by pair and over the whole scan, the oracle with the pre-filter computes
exactly the same answer as the oracle with only the exact distance check. -/
theorem claim_C5_coarse_filter_equivalence (candSize sx sy catMin : ℚ)
    (asteroids : List Asteroid) :
    (∀ a : Asteroid, overlapsPair candSize sx sy catMin a
        = overlapsPairExact candSize sx sy catMin a) ∧
    overlapsAny candSize sx sy catMin asteroids
      = overlapsAnyExact candSize sx sy catMin asteroids :=
  ⟨fun a => overlapsPair_eq_exact candSize sx sy catMin a,
   overlapsAny_eq_exact candSize sx sy catMin asteroids⟩

/-- C6: for every positive average radius and vertex count in `[6, 11]`, the
polygon generator returns exactly `vertexCount` points; each point's
Euclidean distance from the origin lies in `[avgRadius*0.6, avgRadius*1.4]`
(jaggedness 0.4); the vertex angles are strictly increasing, each angular
perturbation staying strictly below half a sector width; and closing the ring
yields a simple, non-self-intersecting polygon: non-adjacent edges are
disjoint and adjacent edges meet exactly in their shared vertex. -/
theorem claim_C6_polygon_generator (avgRadius : ℝ) (numVertices : ℕ) (uA uR : ℕ → ℝ)
    (hr : 0 < avgRadius) (h6 : 6 ≤ numVertices) (h11 : numVertices ≤ 11)
    (huA : ∀ k, 0 ≤ uA k ∧ uA k < 1) (huR : ∀ k, 0 ≤ uR k ∧ uR k < 1) :
    (generateAsteroidPoints avgRadius numVertices uA uR).length = numVertices ∧
    (∀ p ∈ generateAsteroidPoints avgRadius numVertices uA uR,
      Real.sqrt (p.1 ^ 2 + p.2 ^ 2) ∈ Set.Icc (avgRadius * 0.6) (avgRadius * 1.4)) ∧
    (∀ i j : ℕ, i < j → j < numVertices →
      vertexAngle numVertices uA i < vertexAngle numVertices uA j) ∧
    (∀ i < numVertices,
      |vertexAngle numVertices uA i - i * angleStep numVertices|
        < angleStep numVertices / 2) ∧
    (∀ i j : ℕ, i < numVertices → j < numVertices → i ≠ j →
      j ≠ (i + 1) % numVertices → i ≠ (j + 1) % numVertices →
      polyEdge avgRadius numVertices uA uR i ∩ polyEdge avgRadius numVertices uA uR j
        = ∅) ∧
    (∀ i < numVertices,
      polyEdge avgRadius numVertices uA uR i
          ∩ polyEdge avgRadius numVertices uA uR ((i + 1) % numVertices)
        = {vtx avgRadius numVertices uA uR ((i + 1) % numVertices)}) := by
  have hn1 : 1 ≤ numVertices := by omega
  have hs := angleStep_pos hn1
  refine ⟨generateAsteroidPoints_length avgRadius numVertices uA uR, ?_, ?_, ?_, ?_, ?_⟩
  · intro p hp
    obtain ⟨i, hi, hpi⟩ := List.mem_map.mp hp
    have hρ := vertexRadius_bounds hr i (huR i)
    have hρpos := vertexRadius_pos hr i (huR i)
    have hsq : p.1 ^ 2 + p.2 ^ 2 = vertexRadius avgRadius uR i ^ 2 := by
      rw [← hpi]
      unfold vtx
      linear_combination (vertexRadius avgRadius uR i ^ 2)
        * Real.sin_sq_add_cos_sq (vertexAngle numVertices uA i)
    rw [hsq, Real.sqrt_sq (le_of_lt hρpos)]
    exact ⟨hρ.1, hρ.2⟩
  · intro i j hij _
    exact vertexAngle_strictMono hn1 huA hij
  · intro i _
    have hδ := vertexDelta_bounds hn1 i (huA i)
    unfold vertexDelta at hδ
    rw [abs_lt]
    constructor
    · nlinarith [hδ.1]
    · nlinarith [hδ.2]
  · intro i j hi hj hne hadj1 hadj2
    rcases lt_or_gt_of_ne hne with hlt | hgt
    · have hi1 : (i + 1) % numVertices = i + 1 := Nat.mod_eq_of_lt (by omega)
      refine edges_disjoint_ordered hr h6 huA huR hlt hj (by rw [hi1] at hadj1; exact hadj1) ?_
      rintro ⟨rfl, rfl⟩
      apply hadj2
      have h1 : numVertices - 1 + 1 = numVertices := by omega
      rw [h1, Nat.mod_self]
    · have hj1 : (j + 1) % numVertices = j + 1 := Nat.mod_eq_of_lt (by omega)
      rw [Set.inter_comm]
      refine edges_disjoint_ordered hr h6 huA huR hgt hi
        (by rw [hj1] at hadj2; exact hadj2) ?_
      rintro ⟨rfl, rfl⟩
      apply hadj1
      have h1 : numVertices - 1 + 1 = numVertices := by omega
      rw [h1, Nat.mod_self]
  · intro i hi
    exact edges_adjacent_inter hr h6 huA huR hi

theorem claim_C6_polygon_generator_witness :
    (0 : ℝ) < 1 ∧ (6 : ℕ) ≤ 6 ∧ (6 : ℕ) ≤ 11 ∧
    ((generateAsteroidPoints 1 6 (fun _ => 1 / 2) (fun _ => 1 / 2)).length = 6 ∧
    (∀ p ∈ generateAsteroidPoints 1 6 (fun _ => 1 / 2) (fun _ => 1 / 2),
      Real.sqrt (p.1 ^ 2 + p.2 ^ 2) ∈ Set.Icc ((1 : ℝ) * 0.6) ((1 : ℝ) * 1.4)) ∧
    (∀ i j : ℕ, i < j → j < 6 →
      vertexAngle 6 (fun _ => 1 / 2) i < vertexAngle 6 (fun _ => 1 / 2) j) ∧
    (∀ i < 6, |vertexAngle 6 (fun _ => 1 / 2) i - i * angleStep 6| < angleStep 6 / 2) ∧
    (∀ i j : ℕ, i < 6 → j < 6 → i ≠ j → j ≠ (i + 1) % 6 → i ≠ (j + 1) % 6 →
      polyEdge 1 6 (fun _ => 1 / 2) (fun _ => 1 / 2) i
          ∩ polyEdge 1 6 (fun _ => 1 / 2) (fun _ => 1 / 2) j = ∅) ∧
    (∀ i < 6,
      polyEdge 1 6 (fun _ => 1 / 2) (fun _ => 1 / 2) i
          ∩ polyEdge 1 6 (fun _ => 1 / 2) (fun _ => 1 / 2) ((i + 1) % 6)
        = {vtx 1 6 (fun _ => 1 / 2) (fun _ => 1 / 2) ((i + 1) % 6)})) :=
  ⟨by norm_num, by norm_num, by norm_num,
   claim_C6_polygon_generator 1 6 (fun _ => 1 / 2) (fun _ => 1 / 2) (by norm_num)
     (by norm_num) (by norm_num) (fun _ => by norm_num) (fun _ => by norm_num)⟩

/-- C7 counterexample: with all-zero randomness, every in-view candidate of a
startup request lands in the player safe zone, the fallback off-screen
spawner is invoked, and its every candidate overlaps an existing asteroid at
`(-100, -100)` — so the startup request creates no asteroid at all,
refuting "each of the initialCount startup requests results in an asteroid
being created". -/
theorem claim_C7_fallback_counterexample :
    spawnAsteroidInView (constEnv 0) (constEnv 0) 100 100 ⟨0, 0, 100, 100⟩ (0, 0)
      [circleAsteroid (-100) (-100) 10] = (none, [circleAsteroid (-100) (-100) 10]) := by
  rw [spawnAsteroidInView_exhausted (constEnv 0) (constEnv 0) 100 100 ⟨0, 0, 100, 100⟩
    (0, 0) [circleAsteroid (-100) (-100) 10] (fun k _ => inViewRejected_constEnv0 _ k)]
  apply spawnAsteroid_all_rejected
  intro k _
  rw [chooseEdge_constEnv0]
  exact offRejected_constEnv0 k

/-- C7 (amended): when the in-view scatter strategy exhausts its
`SPAWN_MAX_RETRIES * 2` retries, it falls back to invoking the off-screen
edge spawn strategy on the same group; the fallback itself may still fail
after its own retry budget, in which case no asteroid is created. -/
theorem claim_C7_fallback_invoked (e eFallback : SpawnEnv) (areaWidth areaHeight : ℚ)
    (worldView : Rect) (playerVel : ℚ × ℚ) (asteroids : List Asteroid)
    (h : ∀ k < SPAWN_MAX_RETRIES * 2, inViewRejected e areaWidth areaHeight asteroids k) :
    spawnAsteroidInView e eFallback areaWidth areaHeight worldView playerVel asteroids
      = spawnAsteroid eFallback worldView playerVel asteroids :=
  spawnAsteroidInView_exhausted e eFallback areaWidth areaHeight worldView playerVel
    asteroids h

theorem claim_C7_fallback_invoked_witness :
    (∀ k < SPAWN_MAX_RETRIES * 2, inViewRejected (constEnv 0) 100 100 [] k) ∧
    spawnAsteroidInView (constEnv 0) (constEnv 0) 100 100 ⟨0, 0, 100, 100⟩ (0, 0) []
      = spawnAsteroid (constEnv 0) ⟨0, 0, 100, 100⟩ (0, 0) [] :=
  ⟨fun k _ => inViewRejected_constEnv0 [] k,
   claim_C7_fallback_invoked (constEnv 0) (constEnv 0) 100 100 ⟨0, 0, 100, 100⟩ (0, 0) []
     (fun k _ => inViewRejected_constEnv0 [] k)⟩

/-- C8: in every reachable world state, every live asteroid has positive
hit points (at most the largest category hp 3, so it was created with its
category's hp of 1, 2 or 3 and only ever decremented while positive) and a
stored outline of 6 to 11 — hence at least 3 — points; the damage handler
removes an asteroid in the same step its hit points reach 0. -/
theorem claim_C8_live_asteroid_invariant {w : World} (h : Reachable w) {a : Asteroid}
    (ha : a ∈ w.asteroids) :
    0 < a.hitPoints ∧ 3 ≤ a.points.length ∧
      a.hitPoints ≤ 3 ∧ 6 ≤ a.points.length ∧ a.points.length ≤ 11 := by
  obtain ⟨h1, h2, h3, h4⟩ := reachable_inv h a ha
  exact ⟨h1, by omega, h2, h3, h4⟩

theorem claim_C8_live_asteroid_invariant_witness :
    0 < (regionSpawnedAsteroid (constEnv 0) (200, 200)).hitPoints ∧
    3 ≤ (regionSpawnedAsteroid (constEnv 0) (200, 200)).points.length ∧
    (regionSpawnedAsteroid (constEnv 0) (200, 200)).hitPoints ≤ 3 ∧
    6 ≤ (regionSpawnedAsteroid (constEnv 0) (200, 200)).points.length ∧
    (regionSpawnedAsteroid (constEnv 0) (200, 200)).points.length ≤ 11 :=
  claim_C8_live_asteroid_invariant
    (Reachable.step Reachable.init
      (Step.region (constEnv 0) ⟨0, 0, 100, 100⟩ ⟨200, 200, 0, 0⟩ ⟨[]⟩
        (constEnv_valid (by norm_num) (by norm_num))))
    (by rw [spawnAsteroidInRegion_constEnv0]
        exact List.mem_singleton_self _)

/-- C9 counterexample: the `src/src/main.js` flash-revert callback checks
only that the asteroid is still active, not that its hit points are positive;
fired on a still-active asteroid whose hit points already reached 0 it
mutates state (clears the flash), refuting the claim that every scheduled
revert checks both conditions and mutates nothing when either fails. -/
theorem claim_C9_revert_guard_counterexample :
    zeroHpFlashing.active = true ∧ zeroHpFlashing.hitPoints ≤ 0 ∧
    flashRevertMainJs zeroHpFlashing ≠ zeroHpFlashing ∧
    (flashRevertMainJs zeroHpFlashing).isHit = false ∧
    (flashRevertMainJs zeroHpFlashing).fill = none := by
  refine ⟨rfl, by norm_num [zeroHpFlashing], ?_, rfl, rfl⟩
  intro h
  have hbit := congrArg Asteroid.isHit h
  simp [flashRevertMainJs, zeroHpFlashing] at hbit

/-- C9 (amended): the part_000 revert callback checks that the asteroid is
still active and still has positive hit points and mutates nothing when
either check fails; the main.js revert callback checks only liveness, so it
mutates nothing after destruction, but does not guard against a still-active
asteroid with nonpositive hit points.  Neither callback can raise: both are
total functions. -/
theorem claim_C9_revert_guard_amended :
    (∀ a : Asteroid, ¬ (a.active = true ∧ 0 < a.hitPoints) → flashRevert a = a) ∧
    (∀ a : Asteroid, a.active = false → flashRevertMainJs a = a) := by
  constructor
  · intro a ha
    unfold flashRevert
    rw [if_neg (by simp only [Bool.and_eq_true, decide_eq_true_eq]; exact ha)]
  · intro a ha
    unfold flashRevertMainJs
    rw [if_neg (by simp [ha])]

theorem claim_C9_revert_guard_amended_witness :
    ¬ (destroyedAsteroid.active = true ∧ 0 < destroyedAsteroid.hitPoints) ∧
    destroyedAsteroid.active = false ∧
    flashRevert destroyedAsteroid = destroyedAsteroid ∧
    flashRevertMainJs destroyedAsteroid = destroyedAsteroid :=
  ⟨by decide, rfl,
   claim_C9_revert_guard_amended.1 destroyedAsteroid (by decide),
   claim_C9_revert_guard_amended.2 destroyedAsteroid rfl⟩

/-- C10: a bullet hit on a surviving asteroid that is already flashing
(`isHit = true`) only decrements its hit points: the visual state (fill,
`isHit` flag, outline) is untouched and no new revert callback is
scheduled. -/
theorem claim_C10_hit_while_flashing (a : Asteroid) (hact : a.active = true)
    (hbody : a.hasBody = true) (hflash : a.isHit = true) (hsurvive : 2 ≤ a.hitPoints) :
    handleBulletAsteroidCollision a
      = ⟨some { a with hitPoints := a.hitPoints - 1 }, false, false, true⟩ := by
  unfold handleBulletAsteroidCollision
  rw [if_neg (by simp [hact, hbody]), if_neg (by omega), if_neg (by simp [hflash])]

theorem claim_C10_hit_while_flashing_witness :
    flashingSurvivor.active = true ∧ flashingSurvivor.hasBody = true ∧
    flashingSurvivor.isHit = true ∧ 2 ≤ flashingSurvivor.hitPoints ∧
    handleBulletAsteroidCollision flashingSurvivor
      = ⟨some { flashingSurvivor with hitPoints := flashingSurvivor.hitPoints - 1 },
         false, false, true⟩ :=
  ⟨rfl, rfl, rfl, by decide,
   claim_C10_hit_while_flashing flashingSurvivor rfl rfl rfl (by decide)⟩

end AsteroidShooter
